import Mathlib

/-!
# terraform-provider-superset: provider callbacks

A shallow embedding of the lifecycle callbacks in `internal/provider`
(`user_resource.go`, `row_level_security_resource.go`, `users_data_source.go`,
`role_data_source.go`) together with the small part of the Terraform plugin
framework and of Go's `strconv` package that the callbacks rely on.

Conventions of the embedding:

* a Go `error` is represented by its message (`err.Error()`); `nil` is `none`;
* a Go slice is `Option (List α)`, `none` being the `nil` slice;
* a Go `int64` is an `Int`; the only place where the range matters is
  `strconv.ParseInt`, which checks it explicitly;
* a callback is a function from the client, the request and the clock to a
  response that records the diagnostics, the resulting `resp.State`, the
  trace of client operations the callback invoked, and whether the callback
  ended in a Go panic;
* `tflog` calls have no effect on the response and are left out.
-/

namespace Superset

/-! ## Go slices -/

/-- Go slice: `none` is the `nil` slice, `some l` a non-nil slice with elements `l`. -/
abbrev Slice (α : Type) := Option (List α)

/-- Elements of a slice, in order (`nil` has none). -/
def Slice.elems {α : Type} : Slice α → List α
  | none => []
  | some l => l

/-- Go `len(s)`. -/
def Slice.len {α : Type} (s : Slice α) : Nat := s.elems.length

/-- Go `append(s, x)`: the result is never `nil`. -/
def Slice.append {α : Type} (s : Slice α) (x : α) : Slice α := some (s.elems ++ [x])

/-! ## Terraform plugin framework: attribute values -/

/-- A framework attribute value (`types.String`, `types.Int64`, `types.Bool`, ...):
null, unknown, or a known value. The Go zero value of a scalar type is null;
the Go zero value of `types.List` is a null list without element type, which is
not a value of this model (see `ElementsAsAfterGet`). -/
inductive Value (α : Type) where
  | null : Value α
  | unknown : Value α
  | known (v : α) : Value α
  deriving DecidableEq, Repr

/-- Method `IsNull()`. -/
def Value.IsNull {α : Type} : Value α → Bool
  | .null => true
  | _ => false

/-- Method `IsUnknown()`. -/
def Value.IsUnknown {α : Type} : Value α → Bool
  | .unknown => true
  | _ => false

/-- Framework `types.String`. -/
abbrev types_String := Value String
/-- Framework `types.Int64`. -/
abbrev types_Int64 := Value Int
/-- Framework `types.Bool`. -/
abbrev types_Bool := Value Bool
/-- Framework `types.List` with element type `types.Int64Type`. -/
abbrev types_List := Value (List types_Int64)

/-- Method `ValueString()`: the known string, or `""` when null or unknown. -/
def ValueString : types_String → String
  | .known s => s
  | _ => ""

/-- Method `ValueInt64()`: the known integer, or `0` when null or unknown. -/
def ValueInt64 : types_Int64 → Int
  | .known n => n
  | _ => 0

/-- Method `ValueBool()`: the known flag, or `false` when null or unknown. -/
def ValueBool : types_Bool → Bool
  | .known b => b
  | _ => false

/-- Framework `types.StringValue`. -/
def StringValue (s : String) : types_String := .known s
/-- Framework `types.Int64Value`. -/
def Int64Value (n : Int) : types_Int64 := .known n
/-- Framework `types.BoolValue`. -/
def BoolValue (b : Bool) : types_Bool := .known b

/-! ## Terraform plugin framework: diagnostics -/

/-- Severity of a diagnostic. -/
inductive Severity where
  | error
  | warning
  deriving DecidableEq, Repr

/-- One diagnostic: severity, summary and detail. -/
structure Diagnostic where
  severity : Severity
  summary : String
  detail : String
  deriving DecidableEq, Repr

/-- Framework `diag.Diagnostics`. -/
abbrev Diagnostics := List Diagnostic

/-- Method `HasError()`. -/
def HasError (ds : Diagnostics) : Bool :=
  ds.any (fun d => decide (d.severity = Severity.error))

/-- Method `Append(in...)`: adds each diagnostic that is not already contained. -/
def Append (ds : Diagnostics) : Diagnostics → Diagnostics
  | [] => ds
  | d :: rest => if d ∈ ds then Append ds rest else Append (ds ++ [d]) rest

/-- Method `AddError(summary, detail)`: appends a new error diagnostic. -/
def AddError (ds : Diagnostics) (summary detail : String) : Diagnostics :=
  Append ds [{ severity := Severity.error, summary := summary, detail := detail }]

/-- The error diagnostic the framework's reflection code reports when a value
cannot be converted into the Go target. -/
def conversionError (detail : String) : Diagnostic :=
  { severity := Severity.error, summary := "Value Conversion Error", detail := detail }

/-! ## Terraform plugin framework: lists -/

/-- Conversion of the elements of a known list into Go `int64`s: every element
has to be known, an `int64` can hold neither null nor unknown. -/
def elementsToInt64 : List types_Int64 → Option (List Int)
  | [] => some []
  | .known n :: rest => (elementsToInt64 rest).map (fun l => n :: l)
  | _ :: _ => none

/-- Method `ElementsAs(ctx, &target, false)` of `types.List` with a `[]int64`
target that starts as the `nil` slice. A null list leaves the target `nil`
without a diagnostic (a slice can hold `nil`); an unknown list, or a null or
unknown element, is an error and leaves the target untouched. -/
def ElementsAs (l : types_List) : Slice Int × Diagnostics :=
  match l with
  | .null => (none, [])
  | .unknown => (none, [conversionError "Received unknown value, however the target type cannot handle unknown values."])
  | .known elems =>
    match elementsToInt64 elems with
    | some ns => (some ns, [])
    | none => (none, [conversionError "Received null or unknown element, however the target type cannot handle it."])

/-- Framework `types.ListValueFrom(ctx, types.Int64Type, elements)` with a
`[]int64` argument: the `nil` slice becomes the null list, any other slice a
known list of known elements in the same order. It reports no diagnostics. -/
def ListValueFrom (s : Slice Int) : types_List × Diagnostics :=
  match s with
  | none => (.null, [])
  | some ns => (.known (ns.map Int64Value), [])

/-- Elements of a framework list as a sequence (null and unknown lists have none). -/
def listElements : types_List → List types_Int64
  | .known elems => elems
  | _ => []

/-! ## Terraform plugin framework: plan, state, config -/

/-- A `tfsdk.Plan`, `tfsdk.State` or `tfsdk.Config` as the callbacks see it:
the data it holds and the diagnostics that `Get` reports when decoding it. -/
structure tfsdk_Data (M : Type) where
  Raw : M
  GetDiags : Diagnostics

/-- Method `Get(ctx, &target)`: on success the target receives the data; when a
diagnostic is an error the target keeps its Go zero value, whose scalar fields
are those of `zero` (its list fields are lists without element type, see
`ElementsAsAfterGet`). -/
def tfsdk_Data.Get {M : Type} (d : tfsdk_Data M) (zero : M) : M × Diagnostics :=
  if HasError d.GetDiags then (zero, d.GetDiags) else (d.Raw, d.GetDiags)

/-! ## The client (`internal/client`) as seen by the provider -/

/-- Modelled from the spec: the record `GetUser` returns (the client's type
declaration is not part of the available sources); the fields are the ones
`userResource.Read` reads, `Roles` being the ordered list of role IDs. -/
structure client_UserDetail where
  ID : Int
  Username : String
  FirstName : String
  LastName : String
  Email : String
  Active : Bool
  Roles : Slice Int
  deriving DecidableEq, Repr

/-- Modelled from the spec: a role record (numeric ID and name) as embedded in
the users returned by `FetchUsers`. -/
structure client_Role where
  ID : Int
  Name : String
  deriving DecidableEq, Repr

/-- Modelled from the spec: a user record of the list `FetchUsers` returns; the
fields are the ones `usersDataSource.Read` reads. -/
structure client_User where
  ID : Int
  Username : String
  FirstName : String
  LastName : String
  Email : String
  Active : Bool
  Roles : Slice client_Role
  deriving DecidableEq, Repr

/-- Modelled from the spec: the record `GetRowLevelSecurity` returns; the
fields are the ones `rowLevelSecurityResource.Read` reads. -/
structure client_RowLevelSecurity where
  ID : Int
  Name : String
  Tables : Slice Int
  Clause : String
  RoleIDs : Slice Int
  GroupKey : String
  FilterType : String
  Description : String
  deriving DecidableEq, Repr

/-- The operations of `client.Client` the provider calls. Each operation is
given by its outcome for the arguments it receives: `Except.error msg` (or
`some msg` for operations that return only an error) carries `err.Error()`. -/
structure Client where
  CreateUser : String → String → String → String → String → Bool → Slice Int → Except String Int
  GetUser : Int → Except String client_UserDetail
  UpdateUser : Int → String → String → String → String → String → Bool → Slice Int → Option String
  DeleteUser : Int → Option String
  FetchUsers : Except String (Slice client_User)
  CreateRowLevelSecurity : String → Slice Int → String → Slice Int → String → String → String → Except String Int
  GetRowLevelSecurity : Int → Except String client_RowLevelSecurity
  UpdateRowLevelSecurity : Int → String → Slice Int → String → Slice Int → String → String → String → Option String
  DeleteRowLevelSecurity : Int → Option String
  GetRoleIDByName : String → Except String Int

/-- One invocation of a client operation, with its arguments. -/
inductive ClientCall where
  | CreateUser (username firstName lastName email password : String) (active : Bool) (roles : Slice Int)
  | GetUser (id : Int)
  | UpdateUser (id : Int) (username firstName lastName email password : String) (active : Bool) (roles : Slice Int)
  | DeleteUser (id : Int)
  | FetchUsers
  | CreateRowLevelSecurity (name : String) (tables : Slice Int) (clause : String) (roleIDs : Slice Int)
      (groupKey filterType description : String)
  | GetRowLevelSecurity (id : Int)
  | UpdateRowLevelSecurity (id : Int) (name : String) (tables : Slice Int) (clause : String)
      (roleIDs : Slice Int) (groupKey filterType description : String)
  | DeleteRowLevelSecurity (id : Int)
  | GetRoleIDByName (name : String)
  deriving DecidableEq, Repr

/-- What a callback leaves behind: `resp.Diagnostics`, `resp.State` (`none` is
the null state: nothing stored, or the resource removed) and the client
operations it invoked, in order. `Panicked` records that the callback did not
return but ended in a Go panic; diagnostics, state and calls are then the ones
reached before the panic. -/
structure Response (M : Type) where
  Diagnostics : Diagnostics
  State : Option M
  calls : List ClientCall
  Panicked : Bool := false

/-- Go `fmt.Sprintf("%d", n)` for an `int64`. -/
def fmtInt (n : Int) : String := toString n

/-- Method `State.Set(ctx, model)`: stores the model; for a model whose fields
are framework values matching the schema it reports no diagnostics. -/
def State_Set {M : Type} (m : M) : Option M × Diagnostics := (some m, [])

/-- Request of `Create`: the planned values. -/
structure CreateRequest (M : Type) where
  Plan : tfsdk_Data M

/-- Request of `Read` and of `Delete`: the prior state. -/
structure ReadRequest (M : Type) where
  State : tfsdk_Data M

/-- Request of `Update`: the planned values and the prior state. -/
structure UpdateRequest (M : Type) where
  Plan : tfsdk_Data M
  State : tfsdk_Data M

/-- Request of `Delete`: the prior state. -/
structure DeleteRequest (M : Type) where
  State : tfsdk_Data M

/-- Request of `ImportState`: the import identifier given by the user. -/
structure ImportStateRequest where
  ID : String

/-- Request of a data source `Read`: the configuration. -/
structure DataSourceReadRequest (M : Type) where
  Config : tfsdk_Data M

/-! ## `user_resource.go` -/

/-- The struct `userResourceModel`. -/
structure userResourceModel where
  ID : types_Int64
  Username : types_String
  FirstName : types_String
  LastName : types_String
  Email : types_String
  Password : types_String
  Active : types_Bool
  Roles : types_List
  LastUpdated : types_String
  deriving DecidableEq, Repr

/-- The `userResourceModel` whose fields are all null: the object a null state
holds once one attribute is set, and the scalar fields of the Go zero value
(`var plan userResourceModel`). The list field of the Go zero value is
`types.List{}`, a list without element type on which `ElementsAs` panics; that
is not a value of `types_List` and is modelled where it is used, by
`ElementsAsAfterGet`. -/
def userResourceModel.zero : userResourceModel :=
  { ID := .null, Username := .null, FirstName := .null, LastName := .null, Email := .null,
    Password := .null, Active := .null, Roles := .null, LastUpdated := .null }

/-- The callback `userResource.Create`; `now` is `time.Now().Format(time.RFC3339)`.
The response state starts null. -/
def userResource.Create (c : Client) (now : String) (req : CreateRequest userResourceModel) :
    Response userResourceModel :=
  let (plan, diags) := req.Plan.Get userResourceModel.zero
  let d1 := Append [] diags
  if HasError d1 then { Diagnostics := d1, State := none, calls := [] } else
  -- Validate password is provided for creation
  if plan.Password.IsNull || ValueString plan.Password == "" then
    { Diagnostics := AddError d1 "Missing Password" "Password is required when creating a new user",
      State := none, calls := [] } else
  -- Extract roles from plan
  let (roles, diags) := ElementsAs plan.Roles
  let d2 := Append d1 diags
  if HasError d2 then { Diagnostics := d2, State := none, calls := [] } else
  let call := ClientCall.CreateUser (ValueString plan.Username) (ValueString plan.FirstName)
    (ValueString plan.LastName) (ValueString plan.Email) (ValueString plan.Password)
    (ValueBool plan.Active) roles
  match c.CreateUser (ValueString plan.Username) (ValueString plan.FirstName)
      (ValueString plan.LastName) (ValueString plan.Email) (ValueString plan.Password)
      (ValueBool plan.Active) roles with
  | .error err =>
    { Diagnostics := AddError d2 "Unable to Create Superset User" ("CreateUser failed: " ++ err),
      State := none, calls := [call] }
  | .ok id =>
    let plan := { plan with ID := Int64Value id, LastUpdated := StringValue now }
    let (st, diags) := State_Set plan
    { Diagnostics := Append d2 diags, State := st, calls := [call] }

/-- The callback `userResource.Read`. The response state starts as the prior state. -/
def userResource.Read (c : Client) (req : ReadRequest userResourceModel) :
    Response userResourceModel :=
  let (state, diags) := req.State.Get userResourceModel.zero
  let d1 := Append [] diags
  if HasError d1 then { Diagnostics := d1, State := some req.State.Raw, calls := [] } else
  let call := ClientCall.GetUser (ValueInt64 state.ID)
  match c.GetUser (ValueInt64 state.ID) with
  | .error err =>
    { Diagnostics := AddError d1 "Error reading user"
        ("Could not read user ID " ++ fmtInt (ValueInt64 state.ID) ++ ": " ++ err),
      State := some req.State.Raw, calls := [call] }
  | .ok user =>
    -- Update state with values from API
    let state := { state with
      Username := StringValue user.Username, FirstName := StringValue user.FirstName,
      LastName := StringValue user.LastName, Email := StringValue user.Email,
      Active := BoolValue user.Active }
    -- Convert roles to list
    let (rolesList, diags) := ListValueFrom user.Roles
    let d2 := Append d1 diags
    if HasError d2 then { Diagnostics := d2, State := some req.State.Raw, calls := [call] } else
    let state := { state with Roles := rolesList }
    -- Save updated state
    let (st, diags) := State_Set state
    { Diagnostics := Append d2 diags, State := st, calls := [call] }

/-- Method `ElementsAs(ctx, &target, false)` on a list field of a struct filled
by an earlier `Get` whose diagnostics were `getDiags`. When that `Get` failed
the field is still the Go zero value `types.List{}`, which has no element type,
and the method panics (`none`); otherwise it is `ElementsAs`. -/
def ElementsAsAfterGet (getDiags : Diagnostics) (l : types_List) :
    Option (Slice Int × Diagnostics) :=
  if HasError getDiags then none else some (ElementsAs l)

/-- The callback `userResource.Update`; `now` is `time.Now().Format(time.RFC3339)`.
The diagnostics of the two `Get` calls and of `State.Set` are dropped, as in the
source, so the callback goes on after a failed `Get`: with the plan left at
its Go zero value it panics in `plan.Roles.ElementsAs`, before any client call
and before the state is written. The response state starts as the prior state. -/
def userResource.Update (c : Client) (now : String) (req : UpdateRequest userResourceModel) :
    Response userResourceModel :=
  let plan := (req.Plan.Get userResourceModel.zero).1
  let state := (req.State.Get userResourceModel.zero).1
  -- Extract roles from plan
  match ElementsAsAfterGet req.Plan.GetDiags plan.Roles with
  | none => { Diagnostics := [], State := some req.State.Raw, calls := [], Panicked := true }
  | some (roles, diags) =>
  let d1 := Append [] diags
  if HasError d1 then { Diagnostics := d1, State := some req.State.Raw, calls := [] } else
  let call := ClientCall.UpdateUser (ValueInt64 state.ID) (ValueString plan.Username)
    (ValueString plan.FirstName) (ValueString plan.LastName) (ValueString plan.Email)
    (ValueString plan.Password) (ValueBool plan.Active) roles
  match c.UpdateUser (ValueInt64 state.ID) (ValueString plan.Username)
      (ValueString plan.FirstName) (ValueString plan.LastName) (ValueString plan.Email)
      (ValueString plan.Password) (ValueBool plan.Active) roles with
  | some err =>
    { Diagnostics := AddError d1 "Failed to update user" ("Error: " ++ err),
      State := some req.State.Raw, calls := [call] }
  | none =>
    let plan := { plan with ID := state.ID, LastUpdated := StringValue now }
    { Diagnostics := d1, State := (State_Set plan).1, calls := [call] }

/-- The callback `userResource.Delete`. The response state starts as the prior
state; `RemoveResource` makes it null. -/
def userResource.Delete (c : Client) (req : DeleteRequest userResourceModel) :
    Response userResourceModel :=
  let (state, diags) := req.State.Get userResourceModel.zero
  let d1 := Append [] diags
  if HasError d1 then { Diagnostics := d1, State := some req.State.Raw, calls := [] } else
  let call := ClientCall.DeleteUser (ValueInt64 state.ID)
  match c.DeleteUser (ValueInt64 state.ID) with
  | some err =>
    if err == "failed to delete user, status code: 404" then
      { Diagnostics := d1, State := none, calls := [call] }
    else
      { Diagnostics := AddError d1 "Unable to Delete Superset User" ("DeleteUser failed: " ++ err),
        State := some req.State.Raw, calls := [call] }
  | none => { Diagnostics := d1, State := none, calls := [call] }

/-! ## Go `strconv.ParseInt(s, 10, 64)` -/

/-- The two kinds of `*strconv.NumError`. -/
inductive NumError where
  | ErrSyntax
  | ErrRange
  deriving DecidableEq, Repr

/-- Lower-case hexadecimal digits of `n`, padded with zeros to `width` digits. -/
def hexPadded (width n : Nat) : String :=
  let ds := Nat.toDigits 16 n
  String.mk (List.replicate (width - ds.length) (Char.ofNat 48) ++ ds)

/-- Go `strconv.IsPrint`: exact on Latin-1 (`0x20..0x7E`, and `0xA1..0xFF`
without the soft hyphen `0xAD`). Beyond `U+00FF` Go consults its Unicode
tables; those are not reproduced and every such character counts as printable. -/
def isPrintRune (c : Char) : Bool :=
  if c.toNat ≤ 255 then
    decide ((32 ≤ c.toNat ∧ c.toNat ≤ 126) ∨ (161 ≤ c.toNat ∧ c.toNat ≠ 173))
  else true

/-- One character as Go `strconv.Quote` writes it: the double quote and the
backslash are backslashed, a printable character stands for itself, the
control characters with a short escape use it, other characters below the
space and DEL are written `\x` and two digits, the remaining ones `\u` and
four digits or `\U` and eight digits. -/
def quoteRune (c : Char) : String :=
  let backslash := Char.ofNat 92
  if c.toNat = 34 ∨ c.toNat = 92 then String.mk [backslash, c]
  else if isPrintRune c then String.mk [c]
  else if c.toNat = 7 then String.mk [backslash, 'a']
  else if c.toNat = 8 then String.mk [backslash, 'b']
  else if c.toNat = 12 then String.mk [backslash, 'f']
  else if c.toNat = 10 then String.mk [backslash, 'n']
  else if c.toNat = 13 then String.mk [backslash, 'r']
  else if c.toNat = 9 then String.mk [backslash, 't']
  else if c.toNat = 11 then String.mk [backslash, 'v']
  else if c.toNat < 32 ∨ c.toNat = 127 then String.mk [backslash, 'x'] ++ hexPadded 2 c.toNat
  else if c.toNat < 65536 then String.mk [backslash, 'u'] ++ hexPadded 4 c.toNat
  else String.mk [backslash, 'U'] ++ hexPadded 8 c.toNat

/-- Go `strconv.Quote(s)`: the characters of `s`, each written by `quoteRune`,
between double quotes. -/
def strconvQuote (s : String) : String :=
  String.mk [Char.ofNat 34] ++ String.join (s.data.map quoteRune) ++ String.mk [Char.ofNat 34]

/-- Text of `err.Error()` for `ParseInt` on input `s`. -/
def NumError.Error (s : String) : NumError → String
  | .ErrSyntax => "strconv.ParseInt: parsing " ++ strconvQuote s ++ ": invalid syntax"
  | .ErrRange => "strconv.ParseInt: parsing " ++ strconvQuote s ++ ": value out of range"

/-- Largest `uint64`. -/
def maxUint64 : Nat := 2 ^ 64 - 1

/-- The `switch` of `ParseUint` that turns one byte into a digit value:
`'0'..'9'` give `0..9`, a letter gives `10..35` (`lower(c) = c | 0x20`), any
other byte is a syntax error. A character outside ASCII is encoded by bytes
`≥ 0x80`, which are neither, so it is rejected at its first byte. -/
def digitValue (c : Char) : Option Nat :=
  if 128 ≤ c.toNat then none
  else if 48 ≤ c.toNat ∧ c.toNat ≤ 57 then some (c.toNat - 48)
  else if 97 ≤ (c.toNat ||| 32) ∧ (c.toNat ||| 32) ≤ 122 then some ((c.toNat ||| 32) - 97 + 10)
  else none

/-- The digit loop of `ParseUint` for a base in `2..36` (no underscores are
accepted then); `n` is the `uint64` accumulated so far. -/
def ParseUint.loop (base cutoff maxVal : Nat) : List Char → Nat → Except NumError Nat
  | [], n => .ok n
  | c :: cs, n =>
    match digitValue c with
    | none => .error .ErrSyntax
    | some d =>
      if base ≤ d then .error .ErrSyntax
      else if cutoff ≤ n then .error .ErrRange  -- n*base overflows
      else
        let n := (n * base) % 2 ^ 64
        let n1 := (n + d) % 2 ^ 64
        if n1 < n ∨ maxVal < n1 then .error .ErrRange  -- n+d overflows
        else ParseUint.loop base cutoff maxVal cs n1

/-- Go `strconv.ParseUint(s, 10, 64)` on the characters of `s`. -/
def ParseUint (s : List Char) : Except NumError Nat :=
  if s = [] then .error .ErrSyntax
  else ParseUint.loop 10 (maxUint64 / 10 + 1) (2 ^ 64 - 1) s 0

/-- Conversion `int64(un)` of a `uint64`. -/
def toInt64 (un : Nat) : Int := if un < 2 ^ 63 then (un : Int) else (un : Int) - 2 ^ 64

/-- Negation of an `int64` (wraps at the minimum). -/
def negInt64 (n : Int) : Int := if n = -(2 : Int) ^ 63 then n else -n

/-- Go `strconv.ParseInt(s, 10, 64)`: an optional sign, then `ParseUint`, then
the range check against `1 << 63`. -/
def ParseInt (s : String) : Except NumError Int :=
  match s.data with
  | [] => .error .ErrSyntax
  | c0 :: rest =>
    -- Pick off leading sign.
    let neg := decide (c0 = '-')
    let body := if c0 = '+' then rest else if c0 = '-' then rest else c0 :: rest
    -- Convert unsigned and check range.
    match ParseUint body with
    | .error .ErrSyntax => .error .ErrSyntax
    | r =>
      let un := match r with
        | .ok un => un
        | .error _ => 2 ^ 64 - 1
      let cutoff := 2 ^ 63
      if !neg ∧ cutoff ≤ un then .error .ErrRange
      else if neg ∧ cutoff < un then .error .ErrRange
      else
        let n := toInt64 un
        .ok (if neg then negInt64 n else n)

/-- Method `State.SetAttribute(ctx, path.Root("id"), id)` with an `int64`:
sets the attribute (supplied by `set`) in the state, starting from the
all-null object `zero` when the state is null; it reports no diagnostics. -/
def State_SetAttributeID {M : Type} (zero : M) (set : M → types_Int64 → M) (st : Option M)
    (id : Int) : Option M × Diagnostics :=
  (some (set (st.getD zero) (Int64Value id)), [])

/-- The callback `userResource.ImportState`. The response state starts null;
the diagnostics of `SetAttribute` are dropped, as in the source. -/
def userResource.ImportState (req : ImportStateRequest) : Response userResourceModel :=
  -- Convert import ID to int64 and set it to the state
  match ParseInt req.ID with
  | .error err =>
    { Diagnostics := AddError [] "Invalid Import ID"
        ("The provided import ID '" ++ req.ID ++ "' is not a valid int64: " ++ err.Error req.ID),
      State := none, calls := [] }
  | .ok id =>
    -- Set the ID in the state and call Read
    { Diagnostics := [],
      State := (State_SetAttributeID userResourceModel.zero (fun m v => { m with ID := v }) none id).1,
      calls := [] }

/-! ## `row_level_security_resource.go` -/

/-- The struct `rowLevelSecurityResourceModel`. -/
structure rowLevelSecurityResourceModel where
  ID : types_Int64
  Name : types_String
  Tables : types_List
  Clause : types_String
  RoleIDs : types_List
  GroupKey : types_String
  FilterType : types_String
  Description : types_String
  deriving DecidableEq, Repr

/-- The `rowLevelSecurityResourceModel` whose fields are all null: the object a
null state holds once one attribute is set, and the scalar fields of the Go
zero value. The list fields of the Go zero value are lists without element
type; no callback of this resource reads them, each returns right after a
failed `Get`. -/
def rowLevelSecurityResourceModel.zero : rowLevelSecurityResourceModel :=
  { ID := .null, Name := .null, Tables := .null, Clause := .null, RoleIDs := .null,
    GroupKey := .null, FilterType := .null, Description := .null }

/-- The lines `filterType := "Regular"` and `if !plan.FilterType.IsNull()
{ filterType = plan.FilterType.ValueString() }` of `Create` and `Update`. -/
def filterTypeOf (plan : rowLevelSecurityResourceModel) : String :=
  if !plan.FilterType.IsNull then ValueString plan.FilterType else "Regular"

/-- The lines `var roleIDs []int64` and `if !plan.RoleIDs.IsNull() { diags =
plan.RoleIDs.ElementsAs(ctx, &roleIDs, false) ... }` of `Create` and `Update`:
the slice and the diagnostics to append. -/
def roleIDsOf (plan : rowLevelSecurityResourceModel) : Slice Int × Diagnostics :=
  if !plan.RoleIDs.IsNull then ElementsAs plan.RoleIDs else (none, [])

/-- The callback `rowLevelSecurityResource.Create`. The response state starts null. -/
def rowLevelSecurityResource.Create (c : Client) (req : CreateRequest rowLevelSecurityResourceModel) :
    Response rowLevelSecurityResourceModel :=
  let (plan, diags) := req.Plan.Get rowLevelSecurityResourceModel.zero
  let d1 := Append [] diags
  if HasError d1 then { Diagnostics := d1, State := none, calls := [] } else
  let (tables, diags) := ElementsAs plan.Tables
  let d2 := Append d1 diags
  if HasError d2 then { Diagnostics := d2, State := none, calls := [] } else
  let (roleIDs, diags) := roleIDsOf plan
  let d3 := Append d2 diags
  if HasError d3 then { Diagnostics := d3, State := none, calls := [] } else
  let filterType := filterTypeOf plan
  let call := ClientCall.CreateRowLevelSecurity (ValueString plan.Name) tables
    (ValueString plan.Clause) roleIDs (ValueString plan.GroupKey) filterType
    (ValueString plan.Description)
  match c.CreateRowLevelSecurity (ValueString plan.Name) tables (ValueString plan.Clause)
      roleIDs (ValueString plan.GroupKey) filterType (ValueString plan.Description) with
  | .error err =>
    { Diagnostics := AddError d3 "Error creating RLS rule" ("Could not create RLS rule: " ++ err),
      State := none, calls := [call] }
  | .ok rlsID =>
    let plan := { plan with ID := Int64Value rlsID }
    let plan := if plan.FilterType.IsNull then { plan with FilterType := StringValue "Regular" } else plan
    let (st, diags) := State_Set plan
    { Diagnostics := Append d3 diags, State := st, calls := [call] }

/-- The callback `rowLevelSecurityResource.Read`. The response state starts as
the prior state. -/
def rowLevelSecurityResource.Read (c : Client) (req : ReadRequest rowLevelSecurityResourceModel) :
    Response rowLevelSecurityResourceModel :=
  let (state, diags) := req.State.Get rowLevelSecurityResourceModel.zero
  let d1 := Append [] diags
  if HasError d1 then { Diagnostics := d1, State := some req.State.Raw, calls := [] } else
  let call := ClientCall.GetRowLevelSecurity (ValueInt64 state.ID)
  match c.GetRowLevelSecurity (ValueInt64 state.ID) with
  | .error err =>
    { Diagnostics := AddError d1 "Error reading RLS rule"
        ("Could not read RLS rule ID " ++ fmtInt (ValueInt64 state.ID) ++ ": " ++ err),
      State := some req.State.Raw, calls := [call] }
  | .ok rls =>
    let state := { state with
      Name := StringValue rls.Name, Clause := StringValue rls.Clause,
      GroupKey := StringValue rls.GroupKey, FilterType := StringValue rls.FilterType,
      Description := StringValue rls.Description }
    let (tables, diags) := ListValueFrom rls.Tables
    let d2 := Append d1 diags
    if HasError d2 then { Diagnostics := d2, State := some req.State.Raw, calls := [call] } else
    let state := { state with Tables := tables }
    let (roleIDs, diags) := ListValueFrom rls.RoleIDs
    let d3 := Append d2 diags
    if HasError d3 then { Diagnostics := d3, State := some req.State.Raw, calls := [call] } else
    let state := { state with RoleIDs := roleIDs }
    let (st, diags) := State_Set state
    { Diagnostics := Append d3 diags, State := st, calls := [call] }

/-- The callback `rowLevelSecurityResource.Update`. The response state starts as
the prior state; the prior state itself is not read. -/
def rowLevelSecurityResource.Update (c : Client) (req : UpdateRequest rowLevelSecurityResourceModel) :
    Response rowLevelSecurityResourceModel :=
  let (plan, diags) := req.Plan.Get rowLevelSecurityResourceModel.zero
  let d1 := Append [] diags
  if HasError d1 then { Diagnostics := d1, State := some req.State.Raw, calls := [] } else
  let (tables, diags) := ElementsAs plan.Tables
  let d2 := Append d1 diags
  if HasError d2 then { Diagnostics := d2, State := some req.State.Raw, calls := [] } else
  let (roleIDs, diags) := roleIDsOf plan
  let d3 := Append d2 diags
  if HasError d3 then { Diagnostics := d3, State := some req.State.Raw, calls := [] } else
  let filterType := filterTypeOf plan
  let call := ClientCall.UpdateRowLevelSecurity (ValueInt64 plan.ID) (ValueString plan.Name) tables
    (ValueString plan.Clause) roleIDs (ValueString plan.GroupKey) filterType
    (ValueString plan.Description)
  match c.UpdateRowLevelSecurity (ValueInt64 plan.ID) (ValueString plan.Name) tables
      (ValueString plan.Clause) roleIDs (ValueString plan.GroupKey) filterType
      (ValueString plan.Description) with
  | some err =>
    { Diagnostics := AddError d3 "Error updating RLS rule"
        ("Could not update RLS rule ID " ++ fmtInt (ValueInt64 plan.ID) ++ ": " ++ err),
      State := some req.State.Raw, calls := [call] }
  | none =>
    let (st, diags) := State_Set plan
    { Diagnostics := Append d3 diags, State := st, calls := [call] }

/-- The callback `rowLevelSecurityResource.Delete`. The response state starts as
the prior state and the callback never touches it: after a callback without
error diagnostics the framework itself removes the resource. -/
def rowLevelSecurityResource.Delete (c : Client) (req : DeleteRequest rowLevelSecurityResourceModel) :
    Response rowLevelSecurityResourceModel :=
  let (state, diags) := req.State.Get rowLevelSecurityResourceModel.zero
  let d1 := Append [] diags
  if HasError d1 then { Diagnostics := d1, State := some req.State.Raw, calls := [] } else
  let call := ClientCall.DeleteRowLevelSecurity (ValueInt64 state.ID)
  match c.DeleteRowLevelSecurity (ValueInt64 state.ID) with
  | some err =>
    { Diagnostics := AddError d1 "Error deleting RLS rule" ("Could not delete RLS rule: " ++ err),
      State := some req.State.Raw, calls := [call] }
  | none => { Diagnostics := d1, State := some req.State.Raw, calls := [call] }

/-- The callback `rowLevelSecurityResource.ImportState`. The response state
starts null. -/
def rowLevelSecurityResource.ImportState (req : ImportStateRequest) :
    Response rowLevelSecurityResourceModel :=
  match ParseInt req.ID with
  | .error err =>
    { Diagnostics := AddError [] "Error importing RLS rule"
        ("Could not parse RLS rule ID: " ++ err.Error req.ID),
      State := none, calls := [] }
  | .ok id =>
    let (st, diags) := State_SetAttributeID rowLevelSecurityResourceModel.zero
      (fun m v => { m with ID := v }) none id
    { Diagnostics := Append [] diags, State := st, calls := [] }

/-! ## `users_data_source.go` and `role_data_source.go` -/

/-- The struct `roleModel` (numeric ID and name of a role). -/
structure roleModel where
  ID : types_Int64
  Name : types_String
  deriving DecidableEq, Repr

/-- Go zero value of `roleModel`. -/
def roleModel.zero : roleModel := { ID := .null, Name := .null }

/-- The struct `userModel`. -/
structure userModel where
  ID : types_Int64
  Username : types_String
  FirstName : types_String
  LastName : types_String
  Email : types_String
  Active : types_Bool
  Roles : Slice roleModel
  deriving DecidableEq, Repr

/-- The struct `usersDataSourceModel`. -/
structure usersDataSourceModel where
  Users : Slice userModel
  deriving DecidableEq, Repr

/-- The inner loop of `usersDataSource.Read`: `userRoles := make([]roleModel,
len(user.Roles))` followed by `userRoles[i] = roleModel{...}` for each role. -/
def userRolesOf (roles : Slice client_Role) : Slice roleModel :=
  some (roles.elems.enum.foldl
    (fun userRoles ir => userRoles.set ir.1
      { ID := Int64Value ir.2.ID, Name := StringValue ir.2.Name })
    (List.replicate roles.len roleModel.zero))

/-- The callback `usersDataSource.Read`: the outer loop appends one `userModel`
per fetched user to `state.Users`, which starts as the `nil` slice. The
response state starts null. -/
def usersDataSource.Read (c : Client) : Response usersDataSourceModel :=
  match c.FetchUsers with
  | .error err =>
    { Diagnostics := AddError [] "Unable to Read Superset Users" err,
      State := none, calls := [ClientCall.FetchUsers] }
  | .ok users =>
    let state : usersDataSourceModel := users.elems.foldl
      (fun state user =>
        let userRoles := userRolesOf user.Roles
        let entry : userModel :=
          { ID := Int64Value user.ID, Username := StringValue user.Username,
            FirstName := StringValue user.FirstName, LastName := StringValue user.LastName,
            Email := StringValue user.Email, Active := BoolValue user.Active,
            Roles := userRoles }
        { state with Users := Slice.append state.Users entry })
      { Users := none }
    let (st, diags) := State_Set state
    { Diagnostics := Append [] diags, State := st, calls := [ClientCall.FetchUsers] }

/-- The struct `roleDataSourceModel`. -/
structure roleDataSourceModel where
  ID : types_Int64
  Name : types_String
  deriving DecidableEq, Repr

/-- Go zero value of `roleDataSourceModel`. -/
def roleDataSourceModel.zero : roleDataSourceModel := { ID := .null, Name := .null }

/-- The callback `roleDataSource.Read`. The response state starts null. -/
def roleDataSource.Read (c : Client) (req : DataSourceReadRequest roleDataSourceModel) :
    Response roleDataSourceModel :=
  let (data, diags) := req.Config.Get roleDataSourceModel.zero
  let d1 := Append [] diags
  if HasError d1 then { Diagnostics := d1, State := none, calls := [] } else
  let call := ClientCall.GetRoleIDByName (ValueString data.Name)
  match c.GetRoleIDByName (ValueString data.Name) with
  | .error err =>
    { Diagnostics := AddError d1 "Unable to Read Superset Role" err, State := none, calls := [call] }
  | .ok roleID =>
    let data := { data with ID := Int64Value roleID }
    let (st, diags) := State_Set data
    { Diagnostics := Append d1 diags, State := st, calls := [call] }

/-! ## The HTTP client (`internal/client`)

The operations of the client are modelled from the specification (sections
4.1, 4.2, 6 and 7) and from the client tests in `superset_test.go`. -/

/-- Modelled from the spec: a JSON value as exchanged with the server (the wire
encoding itself is a standard-library concern and is not modelled). -/
inductive Json where
  | null : Json
  | bool (b : Bool) : Json
  | num (n : Int) : Json
  | str (s : String) : Json
  | arr (elems : List Json) : Json
  | obj (fields : List (String × Json)) : Json

/-- Modelled from the spec: the member of a JSON object stored under `key`
(`none` for a missing member and for a value that is not an object). -/
def Json.get (key : String) : Json → Option Json
  | .obj fields => fields.lookup key
  | _ => none

/-- Modelled from the spec: the HTTP verbs the client uses. -/
inductive Method where
  | GET
  | POST
  | PUT
  | DELETE
  deriving DecidableEq, Repr

/-- Modelled from the spec: a request of the client. Every request carries the
bearer token; a mutating request also carries the CSRF token. -/
structure HttpRequest where
  Method : Method
  URL : String
  Bearer : String
  CSRF : Option String
  Body : Option Json

/-- Modelled from the spec: a response of the server; `Body` is `none` when the
body is empty or is not JSON. -/
structure HttpResponse where
  StatusCode : Nat
  Body : Option Json

/-- Modelled from the spec: the server as the client sees it during one call:
the response to a request, given the requests already issued in that call. -/
abbrev Transport := List HttpRequest → HttpRequest → HttpResponse

/-- Modelled from the spec: the error taxonomy of section 4.2. -/
inductive ClientError where
  | AuthError (msg : String)
  | HTTPStatusError (operation : String) (code : Nat)
  | DecodeError (msg : String)
  | NotFoundError (msg : String)
  deriving DecidableEq, Repr

/-- Modelled from the spec: the message of a client error. The text of a status
error is the one `userResource.Delete` compares against ("failed to delete
user, status code: 404"). -/
def ClientError.Error : ClientError → String
  | .AuthError msg => msg
  | .HTTPStatusError operation code =>
    "failed to " ++ operation ++ ", status code: " ++ toString code
  | .DecodeError msg => msg
  | .NotFoundError msg => msg

/-- Modelled from the spec: the struct `client.Client` of the client tests, a
configured host and the bearer token obtained at login. -/
structure client_Client where
  Host : String
  Token : String

/-- Modelled from the spec: outcome of a client operation together with the
requests it issued, in order. -/
structure CallResult (α : Type) where
  value : Except ClientError α
  requests : List HttpRequest

/-- Modelled from the spec: the request of `FetchCsrfToken`, one GET to the
fixed CSRF endpoint with the bearer token attached. -/
def csrfRequest (c : client_Client) : HttpRequest :=
  { Method := Method.GET, URL := c.Host ++ "/api/v1/security/csrf_token/",
    Bearer := c.Token, CSRF := none, Body := none }

/-- Modelled from the spec: decoding of the CSRF response; a status outside 2xx
or a body without a string under "result" is an authentication error. -/
def decodeCsrfToken (resp : HttpResponse) : Except ClientError String :=
  if 200 ≤ resp.StatusCode ∧ resp.StatusCode < 300 then
    match resp.Body.bind (Json.get "result") with
    | some (.str token) => .ok token
    | _ => .error (.AuthError "failed to decode CSRF token")
  else .error (.AuthError ("failed to get CSRF token, status code: " ++ toString resp.StatusCode))

/-- Modelled from the spec: the uniform shape of a mutating operation (section
4.2): fetch a fresh CSRF token; if that fails return its error without sending
anything else; otherwise send the mutating request with both tokens attached
and treat a status outside the expected set as a status error. -/
def mutate (c : client_Client) (t : Transport) (method : Method) (url : String)
    (body : Option Json) (expected : List Nat) (operation : String) : CallResult HttpResponse :=
  match decodeCsrfToken (t [] (csrfRequest c)) with
  | .error err => { value := .error err, requests := [csrfRequest c] }
  | .ok token =>
    let req : HttpRequest :=
      { Method := method, URL := url, Bearer := c.Token, CSRF := some token, Body := body }
    let resp := t [csrfRequest c] req
    if resp.StatusCode ∈ expected then { value := .ok resp, requests := [csrfRequest c, req] }
    else { value := .error (.HTTPStatusError operation resp.StatusCode),
           requests := [csrfRequest c, req] }

/-- Modelled from the spec: decoding of a create response, only the new numeric
identifier under "id". -/
def decodeID (resp : HttpResponse) : Except ClientError Int :=
  match resp.Body.bind (Json.get "id") with
  | some (.num id) => .ok id
  | _ => .error (.DecodeError "failed to decode the id of the created record")

/-- Modelled from the spec: a list of IDs as a JSON array. -/
def idsToJson (ids : Slice Int) : Json := .arr (ids.elems.map Json.num)

/-- Modelled from the spec: the flat JSON object of a row-level-security rule
sent by create and update. -/
def rlsBody (name : String) (tables : Slice Int) (clause : String) (roleIDs : Slice Int)
    (groupKey filterType description : String) : Json :=
  .obj [("name", .str name), ("tables", idsToJson tables), ("clause", .str clause),
        ("roles", idsToJson roleIDs), ("group_key", .str groupKey),
        ("filter_type", .str filterType), ("description", .str description)]

/-- Modelled from the spec: the flat JSON object of a user sent by create and
update; an empty password is omitted ("no password change"). -/
def userBody (username firstName lastName email password : String) (active : Bool)
    (roles : Slice Int) : Json :=
  .obj ([("username", .str username), ("first_name", .str firstName),
         ("last_name", .str lastName), ("email", .str email), ("active", .bool active),
         ("roles", idsToJson roles)]
        ++ (if password = "" then [] else [("password", Json.str password)]))

/-- Modelled from the spec: `CreateUser`, POST to the users collection,
success codes 200 and 201, the new id decoded from the body. -/
def client_CreateUser (c : client_Client) (t : Transport)
    (username firstName lastName email password : String) (active : Bool) (roles : Slice Int) :
    CallResult Int :=
  let r := mutate c t Method.POST (c.Host ++ "/api/v1/security/users/")
    (some (userBody username firstName lastName email password active roles)) [200, 201]
    "create user"
  { value := r.value.bind decodeID, requests := r.requests }

/-- Modelled from the spec: `UpdateUser`, PUT to the user, success code 200. -/
def client_UpdateUser (c : client_Client) (t : Transport) (id : Int)
    (username firstName lastName email password : String) (active : Bool) (roles : Slice Int) :
    CallResult Unit :=
  let r := mutate c t Method.PUT (c.Host ++ "/api/v1/security/users/" ++ toString id)
    (some (userBody username firstName lastName email password active roles)) [200]
    "update user"
  { value := r.value.map (fun _ => ()), requests := r.requests }

/-- Modelled from the spec: `DeleteUser`, DELETE of the user, success codes 200
and 204. -/
def client_DeleteUser (c : client_Client) (t : Transport) (id : Int) : CallResult Unit :=
  let r := mutate c t Method.DELETE (c.Host ++ "/api/v1/security/users/" ++ toString id)
    none [200, 204] "delete user"
  { value := r.value.map (fun _ => ()), requests := r.requests }

/-- Modelled from the spec: `CreateRowLevelSecurity`, POST to the rule
collection, success codes 200 and 201, the new id decoded from the body. -/
def client_CreateRowLevelSecurity (c : client_Client) (t : Transport) (name : String)
    (tables : Slice Int) (clause : String) (roleIDs : Slice Int)
    (groupKey filterType description : String) : CallResult Int :=
  let r := mutate c t Method.POST (c.Host ++ "/api/v1/rowlevelsecurity/")
    (some (rlsBody name tables clause roleIDs groupKey filterType description)) [200, 201]
    "create row level security"
  { value := r.value.bind decodeID, requests := r.requests }

/-- Modelled from the spec: `UpdateRowLevelSecurity`, PUT to the rule, success
code 200. -/
def client_UpdateRowLevelSecurity (c : client_Client) (t : Transport) (id : Int) (name : String)
    (tables : Slice Int) (clause : String) (roleIDs : Slice Int)
    (groupKey filterType description : String) : CallResult Unit :=
  let r := mutate c t Method.PUT (c.Host ++ "/api/v1/rowlevelsecurity/" ++ toString id)
    (some (rlsBody name tables clause roleIDs groupKey filterType description)) [200]
    "update row level security"
  { value := r.value.map (fun _ => ()), requests := r.requests }

/-- Modelled from the spec: `DeleteRowLevelSecurity`, DELETE of the rule,
success codes 200 and 204. -/
def client_DeleteRowLevelSecurity (c : client_Client) (t : Transport) (id : Int) :
    CallResult Unit :=
  let r := mutate c t Method.DELETE (c.Host ++ "/api/v1/rowlevelsecurity/" ++ toString id)
    none [200, 204] "delete row level security"
  { value := r.value.map (fun _ => ()), requests := r.requests }

/-- Modelled from the spec: the numeric member "id" of a JSON object. -/
def Json.idOf (j : Json) : Option Int :=
  match j.get "id" with
  | some (.num id) => some id
  | _ => none

/-- Modelled from the spec: the "id" values of a sequence of JSON objects, in
order; `none` unless every element has one. -/
def idsOf : List Json → Option (List Int)
  | [] => some []
  | x :: xs =>
    match x.idOf, idsOf xs with
    | some id, some ids => some (id :: ids)
    | _, _ => none

/-- Modelled from the spec: the "id" values of the objects of a JSON array, in
order; `none` unless the value is an array whose elements all have one. -/
def decodeIDs : Json → Option (List Int)
  | .arr elems => idsOf elems
  | _ => none

/-- Modelled from the spec: the string member of a JSON object under `key`. -/
def Json.strOf (key : String) (j : Json) : Option String :=
  match j.get key with
  | some (.str s) => some s
  | _ => none

/-- Modelled from the spec: decoding of one rule from its JSON object, with the
member names of the client test; a missing or ill-typed member is a decode
failure. -/
def decodeRowLevelSecurity (r : Json) : Option client_RowLevelSecurity :=
  match r.idOf, r.strOf "name", (r.get "tables").bind decodeIDs, r.strOf "clause",
      (r.get "roles").bind decodeIDs, r.strOf "group_key", r.strOf "filter_type",
      r.strOf "description" with
  | some id, some name, some tables, some clause, some roles, some groupKey, some filterType,
      some description =>
    some { ID := id, Name := name, Tables := some tables, Clause := clause,
           RoleIDs := some roles, GroupKey := groupKey, FilterType := filterType,
           Description := description }
  | _, _, _, _, _, _, _, _ => none

/-- Modelled from the spec: the request of `GetRowLevelSecurity`, one GET with
the bearer token only. -/
def getRlsRequest (c : client_Client) (id : Int) : HttpRequest :=
  { Method := Method.GET, URL := c.Host ++ "/api/v1/rowlevelsecurity/" ++ toString id,
    Bearer := c.Token, CSRF := none, Body := none }

/-- Modelled from the spec: `GetRowLevelSecurity`, a read: no CSRF token,
success code 200, the record decoded from the envelope under "result". -/
def client_GetRowLevelSecurity (c : client_Client) (t : Transport) (id : Int) :
    CallResult client_RowLevelSecurity :=
  let resp := t [] (getRlsRequest c id)
  if resp.StatusCode = 200 then
    match (resp.Body.bind (Json.get "result")).bind decodeRowLevelSecurity with
    | some rls => { value := .ok rls, requests := [getRlsRequest c id] }
    | none => { value := .error (.DecodeError "failed to decode row level security"),
                requests := [getRlsRequest c id] }
  else { value := .error (.HTTPStatusError "get row level security" resp.StatusCode),
         requests := [getRlsRequest c id] }

/-- Whether a request is a mutating one (POST, PUT or DELETE). -/
def HttpRequest.isMutating (r : HttpRequest) : Bool :=
  decide (r.Method = Method.POST ∨ r.Method = Method.PUT ∨ r.Method = Method.DELETE)

/-- Whether a request is the GET to the CSRF-token endpoint of host `host`. -/
def HttpRequest.isCsrfFetch (host : String) (r : HttpRequest) : Bool :=
  decide (r.Method = Method.GET ∧ r.URL = host ++ "/api/v1/security/csrf_token/")

/-- The client of the client tests. -/
def testHttpClient : client_Client := { Host := "http://test-host", Token := "test-token" }

/-- The mocked server of the client tests: the CSRF endpoint answers 200 with
the token, POST to the rule collection answers 201 with id 123, GET of rule
123 answers the rule of `TestGetRowLevelSecurity`, PUT answers 200 with an
empty object, DELETE answers 200 with an empty body; anything else is 404. -/
def testTransport : Transport := fun _ req =>
  if req.Method = Method.GET ∧ req.URL = "http://test-host/api/v1/security/csrf_token/" then
    { StatusCode := 200, Body := some (.obj [("result", .str "test-csrf-token")]) }
  else if req.Method = Method.POST ∧ req.URL = "http://test-host/api/v1/rowlevelsecurity/" then
    { StatusCode := 201, Body := some (.obj [("id", .num 123)]) }
  else if req.Method = Method.GET ∧ req.URL = "http://test-host/api/v1/rowlevelsecurity/123" then
    { StatusCode := 200, Body := some (.obj [("result", .obj
        [("id", .num 123), ("name", .str "test_rls"), ("tables", .arr [.obj [("id", .num 1)]]),
         ("clause", .str "user_id = 1"), ("group_key", .str "group1"),
         ("filter_type", .str "Regular"), ("description", .str "Test RLS"),
         ("roles", .arr [.obj [("id", .num 2)]])])]) }
  else if req.Method = Method.PUT ∧ req.URL = "http://test-host/api/v1/rowlevelsecurity/123" then
    { StatusCode := 200, Body := some (.obj []) }
  else if req.Method = Method.DELETE ∧ req.URL = "http://test-host/api/v1/rowlevelsecurity/123" then
    { StatusCode := 200, Body := none }
  else { StatusCode := 404, Body := none }

/-- A server whose CSRF endpoint refuses (status 401) and that would answer
every other request with 200. -/
def csrfRefusingTransport : Transport := fun _ req =>
  if req.Method = Method.GET then { StatusCode := 401, Body := none }
  else { StatusCode := 200, Body := some (.obj [("id", .num 1)]) }

/-! ## Fixtures taken from the acceptance tests -/

/-- The client in front of the mocked server of `TestAccUserResource`,
`TestAccUsersDataSource` and the client tests: creating a user answers id 100,
reading user 100 answers the record of the mock, creating a rule answers 123,
and every other operation succeeds. -/
def testClient : Client :=
  { CreateUser := fun _ _ _ _ _ _ _ => .ok 100
    GetUser := fun _ => .ok
      { ID := 100, Username := "test.user", FirstName := "Test", LastName := "User",
        Email := "test.user@example.com", Active := true, Roles := some [4] }
    UpdateUser := fun _ _ _ _ _ _ _ _ => none
    DeleteUser := fun _ => none
    FetchUsers := .ok (some
      [ { ID := 1, Username := "admin", FirstName := "Admin", LastName := "User",
          Email := "admin@example.com", Active := true,
          Roles := some [{ ID := 1, Name := "Admin" }] },
        { ID := 2, Username := "test.user", FirstName := "Test", LastName := "User",
          Email := "test.user@example.com", Active := true,
          Roles := some [{ ID := 4, Name := "Gamma" }] } ])
    CreateRowLevelSecurity := fun _ _ _ _ _ _ _ => .ok 123
    GetRowLevelSecurity := fun _ => .ok
      { ID := 123, Name := "test_rls", Tables := some [1], Clause := "user_id = 1",
        RoleIDs := some [2], GroupKey := "group1", FilterType := "Regular",
        Description := "Test RLS" }
    UpdateRowLevelSecurity := fun _ _ _ _ _ _ _ _ => none
    DeleteRowLevelSecurity := fun _ => none
    GetRoleIDByName := fun _ => .ok 1 }

/-- The user of `testAccUserResourceConfig` as a plan: the computed attributes
`id` and `last_updated` are unknown before the resource exists. -/
def testUserPlan : userResourceModel :=
  { ID := .unknown, Username := .known "test.user", FirstName := .known "Test",
    LastName := .known "User", Email := .known "test.user@example.com",
    Password := .known "S0meStr0ngPass!", Active := .known true,
    Roles := .known [.known 4], LastUpdated := .unknown }

/-- The state of the user of `testAccUserResourceConfig` once created with id 100. -/
def testUserState : userResourceModel :=
  { testUserPlan with ID := .known 100, LastUpdated := .known "2024-01-01T00:00:00Z" }

/-- The rule of `TestAccRowLevelSecurityResource` as a plan. -/
def testRlsPlan : rowLevelSecurityResourceModel :=
  { ID := .unknown, Name := .known "test_rls_rule", Tables := .known [.known 1],
    Clause := .known "user_id = 1", RoleIDs := .known [.known 1], GroupKey := .known "test",
    FilterType := .known "Regular", Description := .known "Test RLS rule" }

/-- The rule of `TestAccRowLevelSecurityResource` once created with id 123. -/
def testRlsState : rowLevelSecurityResourceModel :=
  { testRlsPlan with ID := .known 123 }

/-! ## Vocabulary of the properties -/

/-- The filter type argument of a client call (`none` for the operations that
take no filter type). -/
def ClientCall.filterTypeArg : ClientCall → Option String
  | .CreateRowLevelSecurity _ _ _ _ _ filterType _ => some filterType
  | .UpdateRowLevelSecurity _ _ _ _ _ _ filterType _ => some filterType
  | _ => none

/-- The password argument of a client call (`none` for the operations that
take no password). -/
def ClientCall.passwordArg : ClientCall → Option String
  | .CreateUser _ _ _ _ password _ _ => some password
  | .UpdateUser _ _ _ _ _ password _ _ => some password
  | _ => none

/-- The "Missing Password" diagnostic of `userResource.Create`. -/
def missingPassword : Diagnostic :=
  { severity := Severity.error, summary := "Missing Password",
    detail := "Password is required when creating a new user" }

/-- An ASCII decimal digit. -/
def isDecimalDigit (c : Char) : Bool := decide (48 ≤ c.toNat ∧ c.toNat ≤ 57)

/-- Value of a sequence of decimal digits read in base 10, most significant first. -/
def decimalValue (cs : List Char) : Nat :=
  cs.foldl (fun acc c => 10 * acc + (c.toNat - 48)) 0

/-- A valid base-10 `int64` text, stated independently of the parser: an
optional sign `+` or `-`, then at least one character, all of them decimal
digits, whose value is below `2^63` (at most `2^63` after a minus sign). -/
def validInt64Text (s : String) : Bool :=
  match s.data with
  | [] => false
  | c0 :: rest =>
    let body := if c0 = '+' ∨ c0 = '-' then rest else c0 :: rest
    !body.isEmpty && body.all isDecimalDigit &&
      (if c0 = '-' then decide (decimalValue body ≤ 2 ^ 63) else decide (decimalValue body < 2 ^ 63))

/-- The message of the error that client `c` returns for a call (`none` when
the operation succeeds for these arguments). -/
def Client.errorOf (c : Client) : ClientCall → Option String
  | .CreateUser u f l e p a r =>
    match c.CreateUser u f l e p a r with
    | .error msg => some msg
    | .ok _ => none
  | .GetUser id =>
    match c.GetUser id with
    | .error msg => some msg
    | .ok _ => none
  | .UpdateUser id u f l e p a r => c.UpdateUser id u f l e p a r
  | .DeleteUser id => c.DeleteUser id
  | .FetchUsers =>
    match c.FetchUsers with
    | .error msg => some msg
    | .ok _ => none
  | .CreateRowLevelSecurity n t cl r g ft d =>
    match c.CreateRowLevelSecurity n t cl r g ft d with
    | .error msg => some msg
    | .ok _ => none
  | .GetRowLevelSecurity id =>
    match c.GetRowLevelSecurity id with
    | .error msg => some msg
    | .ok _ => none
  | .UpdateRowLevelSecurity id n t cl r g ft d => c.UpdateRowLevelSecurity id n t cl r g ft d
  | .DeleteRowLevelSecurity id => c.DeleteRowLevelSecurity id
  | .GetRoleIDByName name =>
    match c.GetRoleIDByName name with
    | .error msg => some msg
    | .ok _ => none

/-- The error diagnostics among `ds`, in order. -/
def errorDiagnostics (ds : Diagnostics) : Diagnostics :=
  ds.filter (fun d => decide (d.severity = Severity.error))

/-- The message `e` of a client error is carried to the framework by response
`resp` of a callback whose response state started as `initial`: the response
holds exactly one error diagnostic, its detail contains `e` verbatim (here: it
ends with `e`), the state is still the initial one, and `call` is the only
client operation that was invoked. -/
def ErrorPropagated {M : Type} (initial : Option M) (resp : Response M) (call : ClientCall)
    (e : String) : Prop :=
  (∃ (d : Diagnostic) (pre : String),
      errorDiagnostics resp.Diagnostics = [d] ∧ d.detail = pre ++ e) ∧
  resp.State = initial ∧ resp.calls = [call]

/-- The id argument of a call of `UpdateUser` (`none` for the other operations). -/
def ClientCall.updateUserID : ClientCall → Option Int
  | .UpdateUser id _ _ _ _ _ _ _ => some id
  | _ => none

/-- A diagnostic as `Plan.Get` or `State.Get` reports it when the data cannot
be decoded into the model. -/
def loadFailure : Diagnostic := conversionError "cannot decode the data into the model"

/-- The CSRF discipline of a mutating client operation with outcome `r`: the
first request is the GET to the CSRF-token endpoint and it is not a mutating
request; when that fetch fails the operation returns the error of the fetch and
no POST, PUT or DELETE is among its requests; when it succeeds with `token`
exactly one more request follows, a mutating one that carries `token`. -/
def CsrfFetchedFirst {α : Type} (c : client_Client) (t : Transport) (r : CallResult α) : Prop :=
  (∃ rest : List HttpRequest, r.requests = csrfRequest c :: rest ∧
    (csrfRequest c).isCsrfFetch c.Host = true ∧ (csrfRequest c).isMutating = false) ∧
  (∀ err : ClientError, decodeCsrfToken (t [] (csrfRequest c)) = Except.error err →
    r.value = Except.error err ∧ ∀ q ∈ r.requests, q.isMutating = false) ∧
  (∀ token : String, decodeCsrfToken (t [] (csrfRequest c)) = Except.ok token →
    ∃ q : HttpRequest, r.requests = [csrfRequest c, q] ∧ q.isMutating = true ∧
      q.CSRF = some token)

/-- The POST that `CreateRowLevelSecurity` issues once the CSRF fetch has
returned `token`. -/
def createRlsRequest (c : client_Client) (token name : String) (tables : Slice Int)
    (clause : String) (roleIDs : Slice Int) (groupKey filterType description : String) :
    HttpRequest :=
  { Method := Method.POST, URL := c.Host ++ "/api/v1/rowlevelsecurity/", Bearer := c.Token,
    CSRF := some token,
    Body := some (rlsBody name tables clause roleIDs groupKey filterType description) }

/-- A rule record echoes exactly the values that a `CreateRowLevelSecurity`
call sent to the client (false for any other call). -/
def echoesRls (call : ClientCall) (rls : client_RowLevelSecurity) : Prop :=
  match call with
  | .CreateRowLevelSecurity name tables clause roleIDs groupKey filterType description =>
    rls.Name = name ∧ rls.Tables = tables ∧ rls.Clause = clause ∧ rls.RoleIDs = roleIDs ∧
    rls.GroupKey = groupKey ∧ rls.FilterType = filterType ∧ rls.Description = description
  | _ => False

/-- A user record echoes exactly the values that a `CreateUser` call sent to the
client, the password apart, which the server does not return (false for any
other call). -/
def echoesUser (call : ClientCall) (user : client_UserDetail) : Prop :=
  match call with
  | .CreateUser username firstName lastName email _ active roles =>
    user.Username = username ∧ user.FirstName = firstName ∧ user.LastName = lastName ∧
    user.Email = email ∧ user.Active = active ∧ user.Roles = roles
  | _ => False

/-- The plan of `TestAccRowLevelSecurityResource` with `group_key` and
`description` left unset. -/
def testRlsPlanUnset : rowLevelSecurityResourceModel :=
  { testRlsPlan with GroupKey := .null, Description := .null }

/-- The mocked server after the rule of `testRlsPlanUnset` has been created with
id 123: reading the rule returns exactly what was sent. -/
def echoRlsClient : Client :=
  { testClient with
    GetRowLevelSecurity := fun _ => .ok
      { ID := 123, Name := "test_rls_rule", Tables := some [1], Clause := "user_id = 1",
        RoleIDs := some [1], GroupKey := "", FilterType := "Regular", Description := "" } }

/-- The plan of `testAccUserResourceConfig` with `first_name` and `last_name`
left unset. -/
def testUserPlanUnset : userResourceModel :=
  { testUserPlan with FirstName := .null, LastName := .null }

/-- The mocked server after the user of `testUserPlanUnset` has been created
with id 100: reading the user returns exactly what was sent. -/
def echoUserClient : Client :=
  { testClient with
    GetUser := fun _ => .ok
      { ID := 100, Username := "test.user", FirstName := "", LastName := "",
        Email := "test.user@example.com", Active := true, Roles := some [4] } }

/-- The state that `Create` writes for `testRlsPlanUnset` when the server
answers id 123. -/
def testRlsCreatedUnset : rowLevelSecurityResourceModel :=
  { testRlsPlanUnset with ID := .known 123 }

/-- The state that `Create` writes for `testUserPlanUnset` when the server
answers id 100 at the time "2024-01-01T00:00:00Z". -/
def testUserCreatedUnset : userResourceModel :=
  { testUserPlanUnset with ID := .known 100, LastUpdated := .known "2024-01-01T00:00:00Z" }

/-! ## Basic facts about diagnostics -/

theorem Append_nil_right (ds : Diagnostics) : Append ds [] = ds := rfl

theorem Append_nil_left_nil : Append [] [] = [] := rfl

theorem HasError_append (a b : Diagnostics) : HasError (a ++ b) = (HasError a || HasError b) := by
  simp [HasError, List.any_append]

theorem HasError_of_mem {d : Diagnostic} {ds : Diagnostics} (hd : d ∈ ds)
    (he : d.severity = Severity.error) : HasError ds = true := by
  simp only [HasError, List.any_eq_true, decide_eq_true_eq]
  exact ⟨d, hd, he⟩

theorem HasError_Append (a b : Diagnostics) :
    HasError (Append a b) = (HasError a || HasError b) := by
  induction b generalizing a with
  | nil => simp [Append, HasError]
  | cons d rest ih =>
    unfold Append
    split
    · next hmem =>
      rw [ih]
      by_cases he : d.severity = Severity.error
      · have ha : HasError a = true := HasError_of_mem hmem he
        simp [ha]
      · simp [HasError, he]
    · rw [ih, HasError_append]
      simp [HasError, Bool.or_assoc]

theorem HasError_AddError (ds : Diagnostics) (s d : String) : HasError (AddError ds s d) = true := by
  unfold AddError
  rw [HasError_Append]
  simp [HasError]

theorem HasError_Append_nil_left (b : Diagnostics) : HasError (Append [] b) = HasError b := by
  rw [HasError_Append]
  simp [HasError]

theorem Get_of_no_error {M : Type} (d : tfsdk_Data M) (zero : M) (h : HasError d.GetDiags = false) :
    d.Get zero = (d.Raw, d.GetDiags) := by
  simp [tfsdk_Data.Get, h]

theorem ElementsAsAfterGet_of_no_error (ds : Diagnostics) (l : types_List)
    (h : HasError ds = false) : ElementsAsAfterGet ds l = some (ElementsAs l) := by
  simp [ElementsAsAfterGet, h]

theorem ElementsAsAfterGet_of_error (ds : Diagnostics) (l : types_List)
    (h : HasError ds = true) : ElementsAsAfterGet ds l = none := by
  simp [ElementsAsAfterGet, h]

/-! ## User resource: delete -/

/-- C1: when the prior state is read without error and `DeleteUser` fails with
the message "failed to delete user, status code: 404", `userResource.Delete`
adds no error diagnostic and removes the resource from state, and its
diagnostics and state are those of a delete in which `DeleteUser` succeeds. -/
theorem user_delete_404_already_gone (c : Client) (req : DeleteRequest userResourceModel)
    (hget : HasError req.State.GetDiags = false)
    (h404 : c.DeleteUser (ValueInt64 req.State.Raw.ID) =
      some "failed to delete user, status code: 404") :
    HasError (userResource.Delete c req).Diagnostics = false ∧
    (userResource.Delete c req).State = none ∧
    ∀ c2 : Client, c2.DeleteUser (ValueInt64 req.State.Raw.ID) = none →
      (userResource.Delete c2 req).Diagnostics = (userResource.Delete c req).Diagnostics ∧
      (userResource.Delete c2 req).State = (userResource.Delete c req).State := by
  have hA : HasError (Append [] req.State.GetDiags) = false := by
    rw [HasError_Append_nil_left]; exact hget
  refine ⟨?_, ?_, ?_⟩
  · simp [userResource.Delete, Get_of_no_error _ _ hget, hA, h404]
  · simp [userResource.Delete, Get_of_no_error _ _ hget, hA, h404]
  · intro c2 h2
    simp [userResource.Delete, Get_of_no_error _ _ hget, hA, h404, h2]

theorem user_delete_404_already_gone_witness :
    HasError (userResource.Delete
      { testClient with DeleteUser := fun _ => some "failed to delete user, status code: 404" }
      { State := { Raw := testUserState, GetDiags := [] } }).Diagnostics = false ∧
    (userResource.Delete
      { testClient with DeleteUser := fun _ => some "failed to delete user, status code: 404" }
      { State := { Raw := testUserState, GetDiags := [] } }).State = none :=
  let h := user_delete_404_already_gone
    { testClient with DeleteUser := fun _ => some "failed to delete user, status code: 404" }
    { State := { Raw := testUserState, GetDiags := [] } } rfl rfl
  ⟨h.1, h.2.1⟩

/-! ## Row-level-security resource: delete -/

/-- C2 (the code departs from the claim): whatever the message of the error
that `DeleteRowLevelSecurity` returns, the one reporting a 404 included,
`rowLevelSecurityResource.Delete` adds an error diagnostic, while the same
delete with a succeeding client adds none. -/
theorem rls_delete_reports_every_error (st : rowLevelSecurityResourceModel) (msg : String) :
    HasError (rowLevelSecurityResource.Delete
      { testClient with DeleteRowLevelSecurity := fun _ => some msg }
      { State := { Raw := st, GetDiags := [] } }).Diagnostics = true ∧
    HasError (rowLevelSecurityResource.Delete testClient
      { State := { Raw := st, GetDiags := [] } }).Diagnostics = false := by
  have h0 : HasError ([] : Diagnostics) = false := rfl
  constructor
  · simp [rowLevelSecurityResource.Delete, tfsdk_Data.Get, HasError_AddError, Append, h0]
  · simp [rowLevelSecurityResource.Delete, tfsdk_Data.Get, Append, h0, testClient]

/-! ## User resource: the password on create and on update -/

theorem mem_AddError (ds : Diagnostics) (s d : String) :
    ({ severity := Severity.error, summary := s, detail := d } : Diagnostic) ∈ AddError ds s d := by
  unfold AddError Append
  split
  · simpa [Append] using ‹_›
  · simp [Append]

/-- C3: when the plan is read without error, (a) a null or empty password makes
`userResource.Create` add the "Missing Password" error, invoke no client
operation and leave the state null; (b) a known non-empty password `p` with
roles that convert without error makes it invoke exactly one client operation,
`CreateUser`, with password `p`. -/
theorem user_create_requires_password (c : Client) (now : String)
    (req : CreateRequest userResourceModel) (hget : HasError req.Plan.GetDiags = false) :
    ((req.Plan.Raw.Password.IsNull = true ∨ ValueString req.Plan.Raw.Password = "") →
      missingPassword ∈ (userResource.Create c now req).Diagnostics ∧
      HasError (userResource.Create c now req).Diagnostics = true ∧
      (userResource.Create c now req).calls = [] ∧
      (userResource.Create c now req).State = none) ∧
    (∀ p : String, req.Plan.Raw.Password = Value.known p → p ≠ "" →
      HasError (ElementsAs req.Plan.Raw.Roles).2 = false →
      (userResource.Create c now req).calls =
        [ClientCall.CreateUser (ValueString req.Plan.Raw.Username)
          (ValueString req.Plan.Raw.FirstName) (ValueString req.Plan.Raw.LastName)
          (ValueString req.Plan.Raw.Email) p (ValueBool req.Plan.Raw.Active)
          (ElementsAs req.Plan.Raw.Roles).1]) := by
  have hA : HasError (Append [] req.Plan.GetDiags) = false := by
    rw [HasError_Append_nil_left]; exact hget
  constructor
  · intro hpw
    have hcond : (req.Plan.Raw.Password.IsNull || ValueString req.Plan.Raw.Password == "") = true := by
      rcases hpw with h | h
      · simp [h]
      · simp [h]
    have hresp : userResource.Create c now req =
        { Diagnostics := AddError (Append [] req.Plan.GetDiags) "Missing Password"
            "Password is required when creating a new user",
          State := none, calls := [] } := by
      simp only [userResource.Create, Get_of_no_error _ _ hget, hA, hcond]
      simp
    rw [hresp]
    exact ⟨mem_AddError _ _ _, HasError_AddError _ _ _, rfl, rfl⟩
  · intro p hp hne hroles
    have hnull : req.Plan.Raw.Password.IsNull = false := by simp [hp, Value.IsNull]
    have hB : HasError (Append (Append [] req.Plan.GetDiags) (ElementsAs req.Plan.Raw.Roles).2) = false := by
      rw [HasError_Append, hA, hroles]; rfl
    have hpv : ValueString req.Plan.Raw.Password = p := by simp [hp, ValueString]
    simp only [userResource.Create, Get_of_no_error _ _ hget, hA, hB]
    simp [hnull, hpv, hne]
    split <;> rfl

theorem user_create_requires_password_witness :
    (userResource.Create testClient "2024-01-01T00:00:00Z"
      { Plan := { Raw := { testUserPlan with Password := Value.null }, GetDiags := [] } }).calls = [] ∧
    (userResource.Create testClient "2024-01-01T00:00:00Z"
      { Plan := { Raw := testUserPlan, GetDiags := [] } }).calls =
      [ClientCall.CreateUser "test.user" "Test" "User" "test.user@example.com" "S0meStr0ngPass!"
        true (some [4])] :=
  ⟨((user_create_requires_password testClient "2024-01-01T00:00:00Z"
      { Plan := { Raw := { testUserPlan with Password := Value.null }, GetDiags := [] } } rfl).1
      (Or.inl rfl)).2.2.1,
   (user_create_requires_password testClient "2024-01-01T00:00:00Z"
      { Plan := { Raw := testUserPlan, GetDiags := [] } } rfl).2
      "S0meStr0ngPass!" rfl (by decide) rfl⟩

/-- C4 (the claim as stated fails): an update whose plan has a null password
and a roles list with a null element stops at the roles conversion and never
invokes `UpdateUser`. -/
theorem user_update_null_password_not_performed :
    ({ testUserPlan with Password := Value.null, Roles := Value.known [Value.null] } :
      userResourceModel).Password = Value.null ∧
    (userResource.Update testClient "2024-01-01T00:00:00Z"
      { Plan := { Raw := { testUserPlan with Password := Value.null, Roles := Value.known [Value.null] },
                  GetDiags := [] },
        State := { Raw := testUserState, GetDiags := [] } }).calls = [] ∧
    HasError (userResource.Update testClient "2024-01-01T00:00:00Z"
      { Plan := { Raw := { testUserPlan with Password := Value.null, Roles := Value.known [Value.null] },
                  GetDiags := [] },
        State := { Raw := testUserState, GetDiags := [] } }).Diagnostics = true := by
  refine ⟨rfl, ?_, ?_⟩ <;> decide

/-- C4 (amended): when plan and prior state are read without error and the
plan's roles convert without error, `userResource.Update` invokes exactly one
client operation, `UpdateUser` with the id of the prior state, and the
password argument is the empty string when the plan's password is null and is
`p` when the plan's password is the known string `p`. -/
theorem user_update_password_argument (c : Client) (now : String)
    (req : UpdateRequest userResourceModel)
    (hplan : HasError req.Plan.GetDiags = false) (hstate : HasError req.State.GetDiags = false)
    (hroles : HasError (ElementsAs req.Plan.Raw.Roles).2 = false) :
    (userResource.Update c now req).calls =
      [ClientCall.UpdateUser (ValueInt64 req.State.Raw.ID) (ValueString req.Plan.Raw.Username)
        (ValueString req.Plan.Raw.FirstName) (ValueString req.Plan.Raw.LastName)
        (ValueString req.Plan.Raw.Email) (ValueString req.Plan.Raw.Password)
        (ValueBool req.Plan.Raw.Active) (ElementsAs req.Plan.Raw.Roles).1] ∧
    (req.Plan.Raw.Password = Value.null →
      (userResource.Update c now req).calls.map ClientCall.passwordArg = [some ""]) ∧
    (∀ p : String, req.Plan.Raw.Password = Value.known p →
      (userResource.Update c now req).calls.map ClientCall.passwordArg = [some p]) := by
  have hB : HasError (Append [] (ElementsAs req.Plan.Raw.Roles).2) = false := by
    rw [HasError_Append_nil_left]; exact hroles
  have hcalls : (userResource.Update c now req).calls =
      [ClientCall.UpdateUser (ValueInt64 req.State.Raw.ID) (ValueString req.Plan.Raw.Username)
        (ValueString req.Plan.Raw.FirstName) (ValueString req.Plan.Raw.LastName)
        (ValueString req.Plan.Raw.Email) (ValueString req.Plan.Raw.Password)
        (ValueBool req.Plan.Raw.Active) (ElementsAs req.Plan.Raw.Roles).1] := by
    simp only [userResource.Update, Get_of_no_error _ _ hplan, Get_of_no_error _ _ hstate,
      ElementsAsAfterGet_of_no_error _ _ hplan, hB]
    simp
    split <;> rfl
  refine ⟨hcalls, ?_, ?_⟩
  · intro hp
    rw [hcalls]
    simp [ClientCall.passwordArg, hp, ValueString]
  · intro p hp
    rw [hcalls]
    simp [ClientCall.passwordArg, hp, ValueString]

theorem user_update_password_argument_witness :
    (userResource.Update testClient "2024-01-01T00:00:00Z"
      { Plan := { Raw := { testUserPlan with Password := Value.null }, GetDiags := [] },
        State := { Raw := testUserState, GetDiags := [] } }).calls.map ClientCall.passwordArg
      = [some ""] :=
  (user_update_password_argument testClient "2024-01-01T00:00:00Z"
    { Plan := { Raw := { testUserPlan with Password := Value.null }, GetDiags := [] },
      State := { Raw := testUserState, GetDiags := [] } } rfl rfl rfl).2.1 rfl

/-! ## Row-level-security resource: the filter type -/

/-- C5 (the code departs from the claim): a plan whose `filter_type` is unknown,
which is how an attribute that is optional and computed arrives when it is not
configured, makes `rowLevelSecurityResource.Create` send the empty string as
filter type and store the unknown value, not "Regular". -/
theorem rls_create_unknown_filter_type_not_defaulted :
    (rowLevelSecurityResource.Create testClient
      { Plan := { Raw := { testRlsPlan with FilterType := Value.unknown }, GetDiags := [] } }).calls
      = [ClientCall.CreateRowLevelSecurity "test_rls_rule" (some [1]) "user_id = 1" (some [1])
          "test" "" "Test RLS rule"] ∧
    (rowLevelSecurityResource.Create testClient
      { Plan := { Raw := { testRlsPlan with FilterType := Value.unknown }, GetDiags := [] } }).State
      = some { testRlsPlan with ID := Value.known 123, FilterType := Value.unknown } := by
  constructor <;> decide

/-- C6 (the claim as stated fails): a plan whose `filter_type` is the known
string "Foo" makes `Create` and `Update` pass "Foo" to the client. -/
theorem rls_filter_type_not_checked :
    (rowLevelSecurityResource.Create testClient
      { Plan := { Raw := { testRlsPlan with FilterType := Value.known "Foo" }, GetDiags := [] } }
      ).calls.map ClientCall.filterTypeArg = [some "Foo"] ∧
    (rowLevelSecurityResource.Update testClient
      { Plan := { Raw := { testRlsState with FilterType := Value.known "Foo" }, GetDiags := [] },
        State := { Raw := testRlsState, GetDiags := [] } }
      ).calls.map ClientCall.filterTypeArg = [some "Foo"] := by
  constructor <;> decide

theorem rls_create_calls (c : Client) (req : CreateRequest rowLevelSecurityResourceModel) :
    (rowLevelSecurityResource.Create c req).calls = [] ∨
    ∃ n t cl r g d, (rowLevelSecurityResource.Create c req).calls =
      [ClientCall.CreateRowLevelSecurity n t cl r g (filterTypeOf req.Plan.Raw) d] := by
  unfold rowLevelSecurityResource.Create
  by_cases hg : HasError req.Plan.GetDiags = true
  · left
    simp [tfsdk_Data.Get, hg, HasError_Append_nil_left]
  · have hg2 : HasError req.Plan.GetDiags = false := by simpa using hg
    simp only [Get_of_no_error _ _ hg2]
    split
    · left; rfl
    · split
      · left; rfl
      · split
        · left; rfl
        · right
          split <;> exact ⟨_, _, _, _, _, _, rfl⟩

theorem rls_update_calls (c : Client) (req : UpdateRequest rowLevelSecurityResourceModel) :
    (rowLevelSecurityResource.Update c req).calls = [] ∨
    ∃ i n t cl r g d, (rowLevelSecurityResource.Update c req).calls =
      [ClientCall.UpdateRowLevelSecurity i n t cl r g (filterTypeOf req.Plan.Raw) d] := by
  unfold rowLevelSecurityResource.Update
  by_cases hg : HasError req.Plan.GetDiags = true
  · left
    simp [tfsdk_Data.Get, hg, HasError_Append_nil_left]
  · have hg2 : HasError req.Plan.GetDiags = false := by simpa using hg
    simp only [Get_of_no_error _ _ hg2]
    split
    · left; rfl
    · split
      · left; rfl
      · split
        · left; rfl
        · right
          split <;> exact ⟨_, _, _, _, _, _, _, rfl⟩

/-- C6 (amended): every client call made by `rowLevelSecurityResource.Create`
and `rowLevelSecurityResource.Update` carries "Regular" as filter type when the
plan's `filter_type` is null, and the string `v` itself when it is the known
string `v`; so the filter type passed is one of "Regular" and "Base" whenever
the plan's `filter_type` is null, "Regular" or "Base". -/
theorem rls_filter_type_passed (c : Client) (plan prior : rowLevelSecurityResourceModel)
    (gd sd : Diagnostics) (call : ClientCall)
    (hcall : call ∈ (rowLevelSecurityResource.Create c { Plan := { Raw := plan, GetDiags := gd } }).calls
      ∨ call ∈ (rowLevelSecurityResource.Update c
          { Plan := { Raw := plan, GetDiags := gd }, State := { Raw := prior, GetDiags := sd } }).calls) :
    (plan.FilterType = Value.null → call.filterTypeArg = some "Regular") ∧
    (∀ v : String, plan.FilterType = Value.known v → call.filterTypeArg = some v) ∧
    (plan.FilterType = Value.null ∨ plan.FilterType = Value.known "Regular" ∨
        plan.FilterType = Value.known "Base" →
      call.filterTypeArg = some "Regular" ∨ call.filterTypeArg = some "Base") := by
  have hft : call.filterTypeArg = some (filterTypeOf plan) := by
    rcases hcall with h | h
    · rcases rls_create_calls c { Plan := { Raw := plan, GetDiags := gd } } with h0 | ⟨n, t, cl, r, g, d, h1⟩
      · rw [h0] at h; cases h
      · rw [h1] at h
        rw [List.mem_singleton.mp h]; rfl
    · rcases rls_update_calls c
        { Plan := { Raw := plan, GetDiags := gd }, State := { Raw := prior, GetDiags := sd } }
        with h0 | ⟨i, n, t, cl, r, g, d, h1⟩
      · rw [h0] at h; cases h
      · rw [h1] at h
        rw [List.mem_singleton.mp h]; rfl
  refine ⟨?_, ?_, ?_⟩
  · intro hn
    simp [hft, filterTypeOf, hn, Value.IsNull]
  · intro v hv
    simp [hft, filterTypeOf, hv, Value.IsNull, ValueString]
  · intro h
    rcases h with hn | hr | hb
    · left; simp [hft, filterTypeOf, hn, Value.IsNull]
    · left; simp [hft, filterTypeOf, hr, Value.IsNull, ValueString]
    · right; simp [hft, filterTypeOf, hb, Value.IsNull, ValueString]

theorem rls_filter_type_passed_witness :
    (ClientCall.CreateRowLevelSecurity "test_rls_rule" (some [1]) "user_id = 1" (some [1])
      "test" "Regular" "Test RLS rule").filterTypeArg = some "Regular" :=
  (rls_filter_type_passed testClient { testRlsPlan with FilterType := Value.null } testRlsState [] []
    (ClientCall.CreateRowLevelSecurity "test_rls_rule" (some [1]) "user_id = 1" (some [1])
      "test" "Regular" "Test RLS rule")
    (Or.inl (by decide))).1 rfl

/-! ## Users data source -/

theorem foldl_set_enumFrom {α β : Type} (f : α → β) (z : β) (xs : List α) (pre : List β) :
    (xs.enumFrom pre.length).foldl (fun acc ir => acc.set ir.1 (f ir.2))
      (pre ++ List.replicate xs.length z) = pre ++ xs.map f := by
  induction xs generalizing pre with
  | nil => simp
  | cons x xs ih =>
    have hset : (pre ++ List.replicate (x :: xs).length z).set pre.length (f x)
        = (pre ++ [f x]) ++ List.replicate xs.length z := by
      simp [List.replicate_succ, List.set_append]
    have hlen : (pre ++ [f x]).length = pre.length + 1 := by simp
    simp only [List.enumFrom_cons, List.foldl_cons, hset]
    rw [← hlen, ih (pre ++ [f x])]
    simp

theorem userRolesOf_eq (roles : Slice client_Role) :
    userRolesOf roles = some (roles.elems.map
      (fun r => ({ ID := Value.known r.ID, Name := Value.known r.Name } : roleModel))) := by
  unfold userRolesOf Slice.len
  have h := foldl_set_enumFrom
    (fun r : client_Role => ({ ID := Int64Value r.ID, Name := StringValue r.Name } : roleModel))
    roleModel.zero roles.elems []
  simp only [List.length_nil, List.nil_append] at h
  simp only [List.enum]
  rw [h]
  rfl

theorem foldl_append_users {α : Type} (g : α → userModel) (xs : List α) (st : usersDataSourceModel) :
    (xs.foldl (fun state x => { state with Users := Slice.append state.Users (g x) }) st).Users.elems
      = st.Users.elems ++ xs.map g := by
  induction xs generalizing st with
  | nil => simp
  | cons x xs ih =>
    simp only [List.foldl_cons]
    rw [ih]
    simp [Slice.append, Slice.elems]

/-- C9: when `FetchUsers` returns the list `users`, `usersDataSource.Read` adds
no error and writes a state whose users list has the same length and whose
i-th element carries the id, username, first name, last name, email and active
flag of the i-th returned user, with a roles list of the same length as that
user's roles whose j-th element carries the id and name of the j-th role. -/
theorem users_read_preserves_order_and_count (c : Client) (users : Slice client_User)
    (hfetch : c.FetchUsers = Except.ok users) :
    ∃ st : usersDataSourceModel,
      (usersDataSource.Read c).State = some st ∧
      HasError (usersDataSource.Read c).Diagnostics = false ∧
      st.Users.len = users.len ∧
      ∀ (i : Nat) (u : client_User), users.elems[i]? = some u →
        ∃ m : userModel, st.Users.elems[i]? = some m ∧
          m.ID = Value.known u.ID ∧ m.Username = Value.known u.Username ∧
          m.FirstName = Value.known u.FirstName ∧ m.LastName = Value.known u.LastName ∧
          m.Email = Value.known u.Email ∧ m.Active = Value.known u.Active ∧
          m.Roles.len = u.Roles.len ∧
          ∀ (j : Nat) (r : client_Role), u.Roles.elems[j]? = some r →
            ∃ rm : roleModel, m.Roles.elems[j]? = some rm ∧
              rm.ID = Value.known r.ID ∧ rm.Name = Value.known r.Name := by
  let g : client_User → userModel := fun user =>
    { ID := Int64Value user.ID, Username := StringValue user.Username,
      FirstName := StringValue user.FirstName, LastName := StringValue user.LastName,
      Email := StringValue user.Email, Active := BoolValue user.Active,
      Roles := userRolesOf user.Roles }
  have hst : (usersDataSource.Read c).State = some
      (users.elems.foldl (fun state x => { state with Users := Slice.append state.Users (g x) })
        { Users := none }) := by
    simp only [usersDataSource.Read, hfetch, State_Set]
  have hdiag : HasError (usersDataSource.Read c).Diagnostics = false := by
    simp only [usersDataSource.Read, hfetch, State_Set]
    rfl
  have helems : (users.elems.foldl
      (fun state x => { state with Users := Slice.append state.Users (g x) })
      ({ Users := none } : usersDataSourceModel)).Users.elems = users.elems.map g := by
    rw [foldl_append_users]
    rfl
  refine ⟨_, hst, hdiag, ?_, ?_⟩
  · simp only [Slice.len]
    rw [helems]
    simp
  · intro i u hu
    refine ⟨g u, ?_, rfl, rfl, rfl, rfl, rfl, rfl, ?_, ?_⟩
    · rw [helems]
      simp [List.getElem?_map, hu]
    · show (userRolesOf u.Roles).len = u.Roles.len
      rw [userRolesOf_eq]
      simp [Slice.len, Slice.elems]
    · intro j r hr
      show ∃ rm : roleModel, (userRolesOf u.Roles).elems[j]? = some rm ∧ _
      rw [userRolesOf_eq]
      refine ⟨{ ID := Value.known r.ID, Name := Value.known r.Name }, ?_, rfl, rfl⟩
      show (List.map _ u.Roles.elems)[j]? = _
      rw [List.getElem?_map, hr]
      rfl

theorem users_read_preserves_order_and_count_witness :
    ∃ st : usersDataSourceModel,
      (usersDataSource.Read testClient).State = some st ∧ st.Users.len = 2 :=
  let ⟨st, h1, _, h3, _⟩ := users_read_preserves_order_and_count testClient _ rfl
  ⟨st, h1, h3⟩

/-! ## User resource: read -/

/-- C10: when the prior state is read without error and `GetUser`, called with
the id of that state, returns the record `user`, `userResource.Read` adds no
error and writes a state whose username, first name, last name, email and
active flag are the known values of the record and whose roles are the
record's role IDs, as known values, with the same length and in the same
order. -/
theorem user_read_refreshes_from_record (c : Client) (req : ReadRequest userResourceModel)
    (user : client_UserDetail) (hget : HasError req.State.GetDiags = false)
    (huser : c.GetUser (ValueInt64 req.State.Raw.ID) = Except.ok user) :
    ∃ st : userResourceModel,
      (userResource.Read c req).State = some st ∧
      HasError (userResource.Read c req).Diagnostics = false ∧
      (userResource.Read c req).calls = [ClientCall.GetUser (ValueInt64 req.State.Raw.ID)] ∧
      st.Username = Value.known user.Username ∧ st.FirstName = Value.known user.FirstName ∧
      st.LastName = Value.known user.LastName ∧ st.Email = Value.known user.Email ∧
      st.Active = Value.known user.Active ∧
      listElements st.Roles = user.Roles.elems.map Value.known ∧
      (listElements st.Roles).length = user.Roles.len ∧
      (∀ ids : List Int, user.Roles = some ids → st.Roles = Value.known (ids.map Value.known)) := by
  have hA : HasError (Append [] req.State.GetDiags) = false := by
    rw [HasError_Append_nil_left]; exact hget
  have hL : (ListValueFrom user.Roles).2 = [] := by
    cases user.Roles <;> rfl
  have hresp : userResource.Read c req =
      { Diagnostics := Append [] req.State.GetDiags,
        State := some { req.State.Raw with
          Username := StringValue user.Username, FirstName := StringValue user.FirstName,
          LastName := StringValue user.LastName, Email := StringValue user.Email,
          Active := BoolValue user.Active, Roles := (ListValueFrom user.Roles).1 },
        calls := [ClientCall.GetUser (ValueInt64 req.State.Raw.ID)] } := by
    simp only [userResource.Read, Get_of_no_error _ _ hget, hA, huser, hL, State_Set,
      Append_nil_right]
    simp
  rw [hresp]
  refine ⟨_, rfl, hA, rfl, rfl, rfl, rfl, rfl, rfl, ?_, ?_, ?_⟩
  · cases user.Roles <;> rfl
  · cases user.Roles <;> simp [ListValueFrom, listElements, Slice.len, Slice.elems]
  · intro ids hids
    show (ListValueFrom user.Roles).1 = _
    rw [hids]
    rfl

theorem user_read_refreshes_from_record_witness :
    ∃ st : userResourceModel,
      (userResource.Read testClient { State := { Raw := testUserState, GetDiags := [] } }).State
        = some st ∧
      st.LastName = Value.known "User" ∧ st.Roles = Value.known [Value.known 4] :=
  let ⟨st, h1, _, _, _, _, h6, _, _, _, _, h11⟩ := user_read_refreshes_from_record testClient
    { State := { Raw := testUserState, GetDiags := [] } }
    { ID := 100, Username := "test.user", FirstName := "Test", LastName := "User",
      Email := "test.user@example.com", Active := true, Roles := some [4] } rfl rfl
  ⟨st, h1, h6, h11 [4] rfl⟩

/-! ## `strconv.ParseInt`: what it accepts and what it returns -/

theorem digitValue_digitChar (d : Nat) (h : d < 10) : digitValue (Nat.digitChar d) = some d := by
  interval_cases d <;> rfl

theorem loop_cons_digit (c : Char) (cs : List Char) (n d : Nat)
    (hd : digitValue c = some d) (hd10 : d < 10) (hn : n * 10 + d < 2 ^ 64) :
    ParseUint.loop 10 (maxUint64 / 10 + 1) (2 ^ 64 - 1) (c :: cs) n
      = ParseUint.loop 10 (maxUint64 / 10 + 1) (2 ^ 64 - 1) cs (n * 10 + d) := by
  have h1 : ¬ (10 ≤ d) := by omega
  have h2 : ¬ (maxUint64 / 10 + 1 ≤ n) := by
    simp only [maxUint64]
    omega
  have h3 : n * 10 % 2 ^ 64 = n * 10 := Nat.mod_eq_of_lt (by omega)
  have h4 : (n * 10 + d) % 2 ^ 64 = n * 10 + d := Nat.mod_eq_of_lt hn
  have h5 : ¬ (n * 10 + d < n * 10 ∨ 2 ^ 64 - 1 < n * 10 + d) := by omega
  rw [ParseUint.loop]
  simp only [hd, h1, h2, h3, h4, h5, if_false]

theorem loop_toDigitsCore (fuel n : Nat) (ds : List Char) (hf : n < fuel) (hn : n < 2 ^ 64) :
    ParseUint.loop 10 (maxUint64 / 10 + 1) (2 ^ 64 - 1) (Nat.toDigitsCore 10 fuel n ds) 0
      = ParseUint.loop 10 (maxUint64 / 10 + 1) (2 ^ 64 - 1) ds n := by
  induction fuel generalizing n ds with
  | zero => omega
  | succ fuel ih =>
    rw [Nat.toDigitsCore]
    by_cases h0 : n / 10 = 0
    · simp only [h0, if_true]
      rw [loop_cons_digit _ _ 0 (n % 10) (digitValue_digitChar _ (by omega)) (by omega) (by omega)]
      congr 1
      omega
    · simp only [h0, if_false]
      rw [ih (n / 10) _ (by omega) (by omega)]
      rw [loop_cons_digit _ _ (n / 10) (n % 10) (digitValue_digitChar _ (by omega)) (by omega)
        (by omega)]
      congr 1
      omega

theorem toDigitsCore_ne_nil (fuel n : Nat) (ds : List Char) (h : ds ≠ [] ∨ 0 < fuel) :
    Nat.toDigitsCore 10 fuel n ds ≠ [] := by
  induction fuel generalizing n ds with
  | zero =>
    rcases h with h | h
    · simpa [Nat.toDigitsCore] using h
    · omega
  | succ fuel ih =>
    rw [Nat.toDigitsCore]
    by_cases h0 : n / 10 = 0
    · simp [h0]
    · simp only [h0, if_false]
      exact ih _ _ (Or.inl (by simp))

theorem ParseUint_toDigits (n : Nat) (hn : n < 2 ^ 64) :
    ParseUint (Nat.toDigits 10 n) = Except.ok n := by
  have hne : Nat.toDigits 10 n ≠ [] := toDigitsCore_ne_nil _ _ _ (Or.inr (by omega))
  rw [ParseUint, if_neg hne, Nat.toDigits, loop_toDigitsCore _ _ _ (by omega) hn]
  rfl

theorem ParseUint_ok_head (c0 : Char) (rest : List Char) (un : Nat)
    (h : ParseUint (c0 :: rest) = Except.ok un) : digitValue c0 ≠ none := by
  intro hnone
  simp [ParseUint, ParseUint.loop, hnone] at h

theorem ParseInt_unsigned (s : String) (c0 : Char) (rest : List Char) (un : Nat)
    (hdata : s.data = c0 :: rest) (hp : ParseUint (c0 :: rest) = Except.ok un)
    (hr : un < 2 ^ 63) : ParseInt s = Except.ok (un : Int) := by
  have hd := ParseUint_ok_head c0 rest un hp
  have h1 : c0 ≠ '+' := by
    intro h; rw [h] at hd; exact hd rfl
  have h2 : c0 ≠ '-' := by
    intro h; rw [h] at hd; exact hd rfl
  have h3 : ¬ (2 ^ 63 ≤ un) := by omega
  simp only [ParseInt, hdata, h1, h2, if_false, hp, decide_False, toInt64, hr, if_true]
  simp [h3]
  omega

theorem ParseInt_negative (s : String) (rest : List Char) (un : Nat)
    (hdata : s.data = '-' :: rest) (hp : ParseUint rest = Except.ok un)
    (hr : un ≤ 2 ^ 63) : ParseInt s = Except.ok (-(un : Int)) := by
  have h1 : ('-' : Char) ≠ '+' := by decide
  have h3 : ¬ (2 ^ 63 < un) := by omega
  simp only [ParseInt, hdata, h1, if_false, if_true, hp, decide_True]
  simp only [h3, Bool.not_true, and_false, and_true, if_false, if_true, toInt64, negInt64]
  simp
  split <;> split <;> omega

theorem ParseInt_toString (n : Int) (hlo : -(2 : Int) ^ 63 ≤ n) (hhi : n < (2 : Int) ^ 63) :
    ParseInt (toString n) = Except.ok n := by
  cases n with
  | ofNat m =>
    have hm : m < 2 ^ 63 := by
      have : (m : Int) < (2 : Int) ^ 63 := hhi
      exact_mod_cast this
    have hp := ParseUint_toDigits m (by omega)
    have hne : Nat.toDigits 10 m ≠ [] := toDigitsCore_ne_nil _ _ _ (Or.inr (by omega))
    obtain ⟨c0, rest, hcr⟩ := List.exists_cons_of_ne_nil hne
    have hdata : (toString (Int.ofNat m)).data = c0 :: rest := by
      rw [← hcr]; rfl
    rw [hcr] at hp
    exact ParseInt_unsigned _ c0 rest m hdata hp hm
  | negSucc m =>
    have hm : m + 1 ≤ 2 ^ 63 := by
      have : -(2 : Int) ^ 63 ≤ Int.negSucc m := hlo
      rw [Int.negSucc_eq] at this
      have h2 : ((m : Int) + 1) ≤ (2 : Int) ^ 63 := by omega
      exact_mod_cast h2
    have hp := ParseUint_toDigits (m + 1) (by omega)
    have hdata : (toString (Int.negSucc m)).data = '-' :: Nat.toDigits 10 (m + 1) := rfl
    have h := ParseInt_negative _ _ (m + 1) hdata hp hm
    rw [h, Int.negSucc_eq]
    simp

theorem digitValue_decimal (c : Char) (d : Nat) (hd : digitValue c = some d) (h10 : d < 10) :
    isDecimalDigit c = true ∧ d = c.toNat - 48 := by
  unfold digitValue at hd
  generalize c.toNat ||| 32 = l at hd
  split at hd
  · cases hd
  · split at hd
    · next hc =>
      injection hd with hd
      exact ⟨by simp [isDecimalDigit, hc], hd.symm⟩
    · split at hd
      · injection hd with hd
        omega
      · cases hd

theorem loop_ok (cs : List Char) (n m : Nat)
    (h : ParseUint.loop 10 (maxUint64 / 10 + 1) (2 ^ 64 - 1) cs n = Except.ok m) :
    cs.all isDecimalDigit = true ∧ m = cs.foldl (fun acc c => 10 * acc + (c.toNat - 48)) n := by
  induction cs generalizing n with
  | nil =>
    simp only [ParseUint.loop, Except.ok.injEq] at h
    simp [h]
  | cons c cs ih =>
    rw [ParseUint.loop] at h
    split at h
    · cases h
    · next d hd =>
      split at h
      · cases h
      · next h1 =>
        split at h
        · cases h
        · next h2 =>
          change (if (n * 10 % 2 ^ 64 + d) % 2 ^ 64 < n * 10 % 2 ^ 64 ∨
              2 ^ 64 - 1 < (n * 10 % 2 ^ 64 + d) % 2 ^ 64 then _ else _) = _ at h
          split at h
          · cases h
          · next h5 =>
            simp only [maxUint64] at h2
            have hn1 : (n * 10 % 2 ^ 64 + d) % 2 ^ 64 = n * 10 + d := by omega
            rw [hn1] at h
            obtain ⟨hall, hm⟩ := ih _ h
            obtain ⟨hdig, hdv⟩ := digitValue_decimal c d hd (by omega)
            refine ⟨by simp [hdig, hall], ?_⟩
            rw [hm, List.foldl_cons, ← hdv]
            congr 1
            omega

theorem ParseUint_ok (cs : List Char) (un : Nat) (h : ParseUint cs = Except.ok un) :
    cs.isEmpty = false ∧ cs.all isDecimalDigit = true ∧ un = decimalValue cs := by
  unfold ParseUint at h
  by_cases he : cs = []
  · simp [he] at h
  · rw [if_neg he] at h
    obtain ⟨h1, h2⟩ := loop_ok cs 0 un h
    exact ⟨by simpa using he, h1, h2⟩

theorem ParseInt_ok_valid (s : String) (v : Int) (h : ParseInt s = Except.ok v) :
    validInt64Text s = true := by
  unfold ParseInt at h
  unfold validInt64Text
  cases hdata : s.data with
  | nil => simp [hdata] at h
  | cons c0 rest =>
    simp only [hdata] at h ⊢
    have hbody : (if c0 = '+' then rest else if c0 = '-' then rest else c0 :: rest)
        = (if c0 = '+' ∨ c0 = '-' then rest else c0 :: rest) := by
      by_cases h1 : c0 = '+'
      · simp [h1]
      · by_cases h2 : c0 = '-'
        · simp [h2]
        · simp [h1, h2]
    rw [hbody] at h
    generalize (if c0 = '+' ∨ c0 = '-' then rest else c0 :: rest) = body at h ⊢
    cases hp : ParseUint body with
    | error e =>
      cases e with
      | ErrSyntax => simp [hp] at h
      | ErrRange =>
        simp only [hp] at h
        by_cases hneg : c0 = '-'
        · simp [hneg] at h
        · simp [hneg] at h
    | ok un =>
      obtain ⟨hne, hall, hval⟩ := ParseUint_ok body un hp
      simp only [hp] at h
      by_cases hneg : c0 = '-'
      · simp only [hneg, decide_True, Bool.not_true, if_true] at h ⊢
        split at h
        · cases h
        · split at h
          · cases h
          · next hr =>
            simp only [true_and, not_lt] at hr
            simp [hne, hall, ← hval]
            omega
      · simp only [hneg, decide_False, Bool.not_false, if_false] at h ⊢
        split at h
        · cases h
        · next hr =>
          simp at hr
          simp [hne, hall, ← hval]
          omega

/-! ## Import -/

/-- C7: for every `n` in the `int64` range, `ImportState` of the user resource
and of the row-level-security resource, given the base-10 text of `n` as import
ID, add no error diagnostic, invoke no client operation, and leave a state
whose `id` attribute is the known value `n` (every other attribute null). -/
theorem import_round_trip (n : Int) (hlo : -(2 : Int) ^ 63 ≤ n) (hhi : n < (2 : Int) ^ 63) :
    HasError (userResource.ImportState { ID := toString n }).Diagnostics = false ∧
    (userResource.ImportState { ID := toString n }).State
      = some { userResourceModel.zero with ID := Value.known n } ∧
    HasError (rowLevelSecurityResource.ImportState { ID := toString n }).Diagnostics = false ∧
    (rowLevelSecurityResource.ImportState { ID := toString n }).State
      = some { rowLevelSecurityResourceModel.zero with ID := Value.known n } := by
  have hp := ParseInt_toString n hlo hhi
  simp only [userResource.ImportState, rowLevelSecurityResource.ImportState, hp,
    State_SetAttributeID]
  exact ⟨rfl, rfl, rfl, rfl⟩

theorem import_round_trip_witness :
    (userResource.ImportState { ID := "100" }).State
      = some { userResourceModel.zero with ID := Value.known 100 } ∧
    (rowLevelSecurityResource.ImportState { ID := "-9223372036854775808" }).State
      = some { rowLevelSecurityResourceModel.zero with ID := Value.known (-9223372036854775808) } :=
  ⟨(import_round_trip 100 (by decide) (by decide)).2.1,
   (import_round_trip (-9223372036854775808) (by decide) (by decide)).2.2.2⟩

/-- C8: for every import ID that is not a valid base-10 `int64` text (empty, a
character that is not a decimal digit after the optional sign, or a value
outside the `int64` range), `ImportState` of the user resource and of the
row-level-security resource add an error diagnostic and leave the state null,
so that no `id` attribute is set. -/
theorem import_rejects_invalid_id (id : String) (hinv : validInt64Text id = false) :
    HasError (userResource.ImportState { ID := id }).Diagnostics = true ∧
    (userResource.ImportState { ID := id }).State = none ∧
    HasError (rowLevelSecurityResource.ImportState { ID := id }).Diagnostics = true ∧
    (rowLevelSecurityResource.ImportState { ID := id }).State = none := by
  cases hp : ParseInt id with
  | ok v =>
    have := ParseInt_ok_valid id v hp
    rw [hinv] at this
    cases this
  | error e =>
    simp only [userResource.ImportState, rowLevelSecurityResource.ImportState, hp]
    exact ⟨HasError_AddError _ _ _, trivial, HasError_AddError _ _ _, trivial⟩

theorem import_rejects_invalid_id_witness :
    (userResource.ImportState { ID := "12a" }).State = none ∧
    (userResource.ImportState { ID := "" }).State = none ∧
    (rowLevelSecurityResource.ImportState { ID := "9223372036854775808" }).State = none :=
  ⟨(import_rejects_invalid_id "12a" (by decide)).2.1,
   (import_rejects_invalid_id "" (by decide)).2.1,
   (import_rejects_invalid_id "9223372036854775808" (by decide)).2.2.2⟩

/-! ## Client errors reach the framework -/

theorem errorDiagnostics_of_no_error (ds : Diagnostics) (h : HasError ds = false) :
    errorDiagnostics ds = [] := by
  simp only [errorDiagnostics, List.filter_eq_nil_iff]
  intro d hd hsev
  have := HasError_of_mem hd (by simpa using hsev)
  rw [h] at this
  cases this

theorem errorDiagnostics_AddError (ds : Diagnostics) (s d : String) (h : HasError ds = false) :
    errorDiagnostics (AddError ds s d)
      = [{ severity := Severity.error, summary := s, detail := d }] := by
  have hnot : ({ severity := Severity.error, summary := s, detail := d } : Diagnostic) ∉ ds := by
    intro hmem
    have := HasError_of_mem hmem rfl
    rw [h] at this
    cases this
  simp only [AddError, Append, hnot, if_false, errorDiagnostics, List.filter_append]
  have h0 := errorDiagnostics_of_no_error ds h
  simp only [errorDiagnostics] at h0
  rw [h0]
  rfl

theorem ErrorPropagated_AddError {M : Type} (init : Option M) (ds : Diagnostics)
    (s pre e : String) (call : ClientCall) (h : HasError ds = false) :
    ErrorPropagated init
      { Diagnostics := AddError ds s (pre ++ e), State := init, calls := [call] } call e :=
  ⟨⟨_, pre, errorDiagnostics_AddError ds s (pre ++ e) h, rfl⟩, rfl, rfl⟩

theorem Get_of_error {M : Type} (d : tfsdk_Data M) (zero : M) (h : HasError d.GetDiags = true) :
    d.Get zero = (zero, d.GetDiags) := by
  simp [tfsdk_Data.Get, h]

theorem user_create_error_propagated (c : Client) (now : String)
    (req : CreateRequest userResourceModel) (call : ClientCall) (e : String)
    (hmem : call ∈ (userResource.Create c now req).calls) (herr : c.errorOf call = some e) :
    ErrorPropagated none (userResource.Create c now req) call e := by
  revert hmem
  unfold userResource.Create
  by_cases hg : HasError req.Plan.GetDiags = true
  · simp [Get_of_error _ _ hg, HasError_Append_nil_left, hg]
  · have hg2 : HasError req.Plan.GetDiags = false := by simpa using hg
    simp only [Get_of_no_error _ _ hg2]
    split
    · simp
    · split
      · simp
      · split
        · simp
        · next hd2 =>
          have hd2f : HasError (Append (Append [] req.Plan.GetDiags)
              (ElementsAs req.Plan.Raw.Roles).2) = false := by simpa using hd2
          split
          · next err heq =>
            intro hmem
            have hc := List.mem_singleton.mp hmem
            subst hc
            simp only [Client.errorOf, heq, Option.some.injEq] at herr
            subst herr
            exact ErrorPropagated_AddError none _ _ "CreateUser failed: " _ _ hd2f
          · next id heq =>
            intro hmem
            have hc := List.mem_singleton.mp hmem
            subst hc
            simp [Client.errorOf, heq] at herr

theorem user_read_error_propagated (c : Client) (req : ReadRequest userResourceModel)
    (call : ClientCall) (e : String)
    (hmem : call ∈ (userResource.Read c req).calls) (herr : c.errorOf call = some e) :
    ErrorPropagated (some req.State.Raw) (userResource.Read c req) call e := by
  revert hmem
  unfold userResource.Read
  by_cases hg : HasError req.State.GetDiags = true
  · simp [Get_of_error _ _ hg, HasError_Append_nil_left, hg]
  · have hg2 : HasError req.State.GetDiags = false := by simpa using hg
    simp only [Get_of_no_error _ _ hg2]
    split
    · simp
    · next hd1 =>
      have hd1f : HasError (Append [] req.State.GetDiags) = false := by simpa using hd1
      split
      · next err heq =>
        intro hmem
        have hc := List.mem_singleton.mp hmem
        subst hc
        simp only [Client.errorOf, heq, Option.some.injEq] at herr
        subst herr
        exact ErrorPropagated_AddError _ _ _
          ("Could not read user ID " ++ fmtInt (ValueInt64 req.State.Raw.ID) ++ ": ") _ _ hd1f
      · next user heq =>
        have hnone : c.errorOf (ClientCall.GetUser (ValueInt64 req.State.Raw.ID)) = none := by
          simp [Client.errorOf, heq]
        split
        · intro hmem
          have hc := List.mem_singleton.mp hmem
          subst hc
          rw [hnone] at herr
          cases herr
        · intro hmem
          have hc := List.mem_singleton.mp hmem
          subst hc
          rw [hnone] at herr
          cases herr

theorem user_update_error_propagated (c : Client) (now : String)
    (req : UpdateRequest userResourceModel) (call : ClientCall) (e : String)
    (hmem : call ∈ (userResource.Update c now req).calls) (herr : c.errorOf call = some e) :
    ErrorPropagated (some req.State.Raw) (userResource.Update c now req) call e := by
  revert hmem
  unfold userResource.Update
  by_cases hg : HasError req.Plan.GetDiags = true
  · simp [ElementsAsAfterGet_of_error _ _ hg]
  · have hg2 : HasError req.Plan.GetDiags = false := by simpa using hg
    simp only [ElementsAsAfterGet_of_no_error _ _ hg2, Get_of_no_error _ _ hg2]
    split
    · simp
    · next hd1 =>
      have hd1f : HasError (Append [] (ElementsAs req.Plan.Raw.Roles).2) = false := by
        simpa using hd1
      split
      · next err heq =>
        intro hmem
        have hc := List.mem_singleton.mp hmem
        subst hc
        simp only [Client.errorOf, heq, Option.some.injEq] at herr
        subst herr
        exact ErrorPropagated_AddError _ _ _ "Error: " _ _ hd1f
      · next heq =>
        intro hmem
        have hc := List.mem_singleton.mp hmem
        subst hc
        simp only [Client.errorOf, heq] at herr
        cases herr

theorem user_delete_error_propagated (c : Client) (req : DeleteRequest userResourceModel)
    (call : ClientCall) (e : String)
    (hmem : call ∈ (userResource.Delete c req).calls) (herr : c.errorOf call = some e)
    (h404 : e ≠ "failed to delete user, status code: 404") :
    ErrorPropagated (some req.State.Raw) (userResource.Delete c req) call e := by
  revert hmem
  unfold userResource.Delete
  by_cases hg : HasError req.State.GetDiags = true
  · simp [Get_of_error _ _ hg, HasError_Append_nil_left, hg]
  · have hg2 : HasError req.State.GetDiags = false := by simpa using hg
    simp only [Get_of_no_error _ _ hg2]
    split
    · simp
    · next hd1 =>
      have hd1f : HasError (Append [] req.State.GetDiags) = false := by simpa using hd1
      split
      · next err heq =>
        split
        · next h404eq =>
          intro hmem
          have hc := List.mem_singleton.mp hmem
          subst hc
          simp only [Client.errorOf, heq, Option.some.injEq] at herr
          subst herr
          exact absurd (by simpa using h404eq) h404
        · intro hmem
          have hc := List.mem_singleton.mp hmem
          subst hc
          simp only [Client.errorOf, heq, Option.some.injEq] at herr
          subst herr
          exact ErrorPropagated_AddError _ _ _ "DeleteUser failed: " _ _ hd1f
      · next heq =>
        intro hmem
        have hc := List.mem_singleton.mp hmem
        subst hc
        simp only [Client.errorOf, heq] at herr
        cases herr

theorem rls_create_error_propagated (c : Client)
    (req : CreateRequest rowLevelSecurityResourceModel) (call : ClientCall) (e : String)
    (hmem : call ∈ (rowLevelSecurityResource.Create c req).calls)
    (herr : c.errorOf call = some e) :
    ErrorPropagated none (rowLevelSecurityResource.Create c req) call e := by
  revert hmem
  unfold rowLevelSecurityResource.Create
  by_cases hg : HasError req.Plan.GetDiags = true
  · simp [Get_of_error _ _ hg, HasError_Append_nil_left, hg]
  · have hg2 : HasError req.Plan.GetDiags = false := by simpa using hg
    simp only [Get_of_no_error _ _ hg2]
    split
    · simp
    · split
      · simp
      · split
        · simp
        · next hd3 =>
          have hd3f : HasError (Append (Append (Append [] req.Plan.GetDiags)
              (ElementsAs req.Plan.Raw.Tables).2) (roleIDsOf req.Plan.Raw).2) = false := by
            simpa using hd3
          split
          · next err heq =>
            intro hmem
            have hc := List.mem_singleton.mp hmem
            subst hc
            simp only [Client.errorOf, heq, Option.some.injEq] at herr
            subst herr
            exact ErrorPropagated_AddError _ _ _ "Could not create RLS rule: " _ _ hd3f
          · next id heq =>
            intro hmem
            have hc := List.mem_singleton.mp hmem
            subst hc
            simp [Client.errorOf, heq] at herr

theorem rls_read_error_propagated (c : Client)
    (req : ReadRequest rowLevelSecurityResourceModel) (call : ClientCall) (e : String)
    (hmem : call ∈ (rowLevelSecurityResource.Read c req).calls)
    (herr : c.errorOf call = some e) :
    ErrorPropagated (some req.State.Raw) (rowLevelSecurityResource.Read c req) call e := by
  revert hmem
  unfold rowLevelSecurityResource.Read
  by_cases hg : HasError req.State.GetDiags = true
  · simp [Get_of_error _ _ hg, HasError_Append_nil_left, hg]
  · have hg2 : HasError req.State.GetDiags = false := by simpa using hg
    simp only [Get_of_no_error _ _ hg2]
    split
    · simp
    · next hd1 =>
      have hd1f : HasError (Append [] req.State.GetDiags) = false := by simpa using hd1
      split
      · next err heq =>
        intro hmem
        have hc := List.mem_singleton.mp hmem
        subst hc
        simp only [Client.errorOf, heq, Option.some.injEq] at herr
        subst herr
        exact ErrorPropagated_AddError _ _ _
          ("Could not read RLS rule ID " ++ fmtInt (ValueInt64 req.State.Raw.ID) ++ ": ") _ _ hd1f
      · next rls heq =>
        have hnone : c.errorOf (ClientCall.GetRowLevelSecurity (ValueInt64 req.State.Raw.ID))
            = none := by
          simp [Client.errorOf, heq]
        split
        · intro hmem
          have hc := List.mem_singleton.mp hmem
          subst hc
          rw [hnone] at herr
          cases herr
        · split
          · intro hmem
            have hc := List.mem_singleton.mp hmem
            subst hc
            rw [hnone] at herr
            cases herr
          · intro hmem
            have hc := List.mem_singleton.mp hmem
            subst hc
            rw [hnone] at herr
            cases herr

theorem rls_update_error_propagated (c : Client)
    (req : UpdateRequest rowLevelSecurityResourceModel) (call : ClientCall) (e : String)
    (hmem : call ∈ (rowLevelSecurityResource.Update c req).calls)
    (herr : c.errorOf call = some e) :
    ErrorPropagated (some req.State.Raw) (rowLevelSecurityResource.Update c req) call e := by
  revert hmem
  unfold rowLevelSecurityResource.Update
  by_cases hg : HasError req.Plan.GetDiags = true
  · simp [Get_of_error _ _ hg, HasError_Append_nil_left, hg]
  · have hg2 : HasError req.Plan.GetDiags = false := by simpa using hg
    simp only [Get_of_no_error _ _ hg2]
    split
    · simp
    · split
      · simp
      · split
        · simp
        · next hd3 =>
          have hd3f : HasError (Append (Append (Append [] req.Plan.GetDiags)
              (ElementsAs req.Plan.Raw.Tables).2) (roleIDsOf req.Plan.Raw).2) = false := by
            simpa using hd3
          split
          · next err heq =>
            intro hmem
            have hc := List.mem_singleton.mp hmem
            subst hc
            simp only [Client.errorOf, heq, Option.some.injEq] at herr
            subst herr
            exact ErrorPropagated_AddError _ _ _
              ("Could not update RLS rule ID " ++ fmtInt (ValueInt64 req.Plan.Raw.ID) ++ ": ")
              _ _ hd3f
          · next heq =>
            intro hmem
            have hc := List.mem_singleton.mp hmem
            subst hc
            simp only [Client.errorOf, heq] at herr
            cases herr

theorem rls_delete_error_propagated (c : Client)
    (req : DeleteRequest rowLevelSecurityResourceModel) (call : ClientCall) (e : String)
    (hmem : call ∈ (rowLevelSecurityResource.Delete c req).calls)
    (herr : c.errorOf call = some e) :
    ErrorPropagated (some req.State.Raw) (rowLevelSecurityResource.Delete c req) call e := by
  revert hmem
  unfold rowLevelSecurityResource.Delete
  by_cases hg : HasError req.State.GetDiags = true
  · simp [Get_of_error _ _ hg, HasError_Append_nil_left, hg]
  · have hg2 : HasError req.State.GetDiags = false := by simpa using hg
    simp only [Get_of_no_error _ _ hg2]
    split
    · simp
    · next hd1 =>
      have hd1f : HasError (Append [] req.State.GetDiags) = false := by simpa using hd1
      split
      · next err heq =>
        intro hmem
        have hc := List.mem_singleton.mp hmem
        subst hc
        simp only [Client.errorOf, heq, Option.some.injEq] at herr
        subst herr
        exact ErrorPropagated_AddError _ _ _ "Could not delete RLS rule: " _ _ hd1f
      · next heq =>
        intro hmem
        have hc := List.mem_singleton.mp hmem
        subst hc
        simp only [Client.errorOf, heq] at herr
        cases herr

theorem role_read_error_propagated (c : Client)
    (req : DataSourceReadRequest roleDataSourceModel) (call : ClientCall) (e : String)
    (hmem : call ∈ (roleDataSource.Read c req).calls) (herr : c.errorOf call = some e) :
    ErrorPropagated none (roleDataSource.Read c req) call e := by
  revert hmem
  unfold roleDataSource.Read
  by_cases hg : HasError req.Config.GetDiags = true
  · simp [Get_of_error _ _ hg, HasError_Append_nil_left, hg]
  · have hg2 : HasError req.Config.GetDiags = false := by simpa using hg
    simp only [Get_of_no_error _ _ hg2]
    split
    · simp
    · next hd1 =>
      have hd1f : HasError (Append [] req.Config.GetDiags) = false := by simpa using hd1
      split
      · next err heq =>
        intro hmem
        have hc := List.mem_singleton.mp hmem
        subst hc
        simp only [Client.errorOf, heq, Option.some.injEq] at herr
        subst herr
        have h := ErrorPropagated_AddError (none : Option roleDataSourceModel)
          (Append [] req.Config.GetDiags) "Unable to Read Superset Role" "" err
          (ClientCall.GetRoleIDByName (ValueString req.Config.Raw.Name)) hd1f
        simpa using h
      · next id heq =>
        intro hmem
        have hc := List.mem_singleton.mp hmem
        subst hc
        simp [Client.errorOf, heq] at herr

theorem users_read_error_propagated (c : Client) (call : ClientCall) (e : String)
    (hmem : call ∈ (usersDataSource.Read c).calls) (herr : c.errorOf call = some e) :
    ErrorPropagated none (usersDataSource.Read c) call e := by
  revert hmem
  unfold usersDataSource.Read
  split
  · next err heq =>
    intro hmem
    have hc := List.mem_singleton.mp hmem
    subst hc
    simp only [Client.errorOf, heq, Option.some.injEq] at herr
    subst herr
    have h := ErrorPropagated_AddError (none : Option usersDataSourceModel)
      [] "Unable to Read Superset Users" "" err ClientCall.FetchUsers rfl
    simpa using h
  · next users heq =>
    intro hmem
    have hc := List.mem_singleton.mp hmem
    subst hc
    simp [Client.errorOf, heq] at herr

/-- C12: whenever a callback of the user resource, the row-level-security
resource, the role data source or the users data source invokes a client
operation that returns an error with message `e` (user Delete with the 404
message excepted), the response holds exactly one error diagnostic, its detail
ends with `e` verbatim, the response state is the one the callback started
with, and that operation is the only client call. -/
theorem client_errors_propagate (c : Client) (now : String) (call : ClientCall) (e : String)
    (herr : c.errorOf call = some e) :
    (∀ req, call ∈ (userResource.Create c now req).calls →
      ErrorPropagated none (userResource.Create c now req) call e) ∧
    (∀ req, call ∈ (userResource.Read c req).calls →
      ErrorPropagated (some req.State.Raw) (userResource.Read c req) call e) ∧
    (∀ req, call ∈ (userResource.Update c now req).calls →
      ErrorPropagated (some req.State.Raw) (userResource.Update c now req) call e) ∧
    (∀ req, call ∈ (userResource.Delete c req).calls →
      e ≠ "failed to delete user, status code: 404" →
      ErrorPropagated (some req.State.Raw) (userResource.Delete c req) call e) ∧
    (∀ req, call ∈ (rowLevelSecurityResource.Create c req).calls →
      ErrorPropagated none (rowLevelSecurityResource.Create c req) call e) ∧
    (∀ req, call ∈ (rowLevelSecurityResource.Read c req).calls →
      ErrorPropagated (some req.State.Raw) (rowLevelSecurityResource.Read c req) call e) ∧
    (∀ req, call ∈ (rowLevelSecurityResource.Update c req).calls →
      ErrorPropagated (some req.State.Raw) (rowLevelSecurityResource.Update c req) call e) ∧
    (∀ req, call ∈ (rowLevelSecurityResource.Delete c req).calls →
      ErrorPropagated (some req.State.Raw) (rowLevelSecurityResource.Delete c req) call e) ∧
    (∀ req, call ∈ (roleDataSource.Read c req).calls →
      ErrorPropagated none (roleDataSource.Read c req) call e) ∧
    (call ∈ (usersDataSource.Read c).calls →
      ErrorPropagated none (usersDataSource.Read c) call e) :=
  ⟨fun req h => user_create_error_propagated c now req call e h herr,
   fun req h => user_read_error_propagated c req call e h herr,
   fun req h => user_update_error_propagated c now req call e h herr,
   fun req h h404 => user_delete_error_propagated c req call e h herr h404,
   fun req h => rls_create_error_propagated c req call e h herr,
   fun req h => rls_read_error_propagated c req call e h herr,
   fun req h => rls_update_error_propagated c req call e h herr,
   fun req h => rls_delete_error_propagated c req call e h herr,
   fun req h => role_read_error_propagated c req call e h herr,
   fun h => users_read_error_propagated c call e h herr⟩

theorem client_errors_propagate_witness :
    ErrorPropagated none
      (userResource.Create { testClient with CreateUser := fun _ _ _ _ _ _ _ => .error "boom" }
        "2024-01-01T00:00:00Z" { Plan := { Raw := testUserPlan, GetDiags := [] } })
      (ClientCall.CreateUser "test.user" "Test" "User" "test.user@example.com" "S0meStr0ngPass!"
        true (some [4])) "boom" ∧
    ErrorPropagated (some testRlsState)
      (rowLevelSecurityResource.Delete
        { testClient with CreateUser := fun _ _ _ _ _ _ _ => .error "boom",
                          DeleteRowLevelSecurity := fun _ => some "boom" }
        { State := { Raw := testRlsState, GetDiags := [] } })
      (ClientCall.DeleteRowLevelSecurity 123) "boom" :=
  ⟨(client_errors_propagate { testClient with CreateUser := fun _ _ _ _ _ _ _ => .error "boom" }
      "2024-01-01T00:00:00Z"
      (ClientCall.CreateUser "test.user" "Test" "User" "test.user@example.com" "S0meStr0ngPass!"
        true (some [4])) "boom" rfl).1
      { Plan := { Raw := testUserPlan, GetDiags := [] } } (by decide),
   (client_errors_propagate
      { testClient with CreateUser := fun _ _ _ _ _ _ _ => .error "boom",
                        DeleteRowLevelSecurity := fun _ => some "boom" }
      "2024-01-01T00:00:00Z" (ClientCall.DeleteRowLevelSecurity 123) "boom" rfl).2.2.2.2.2.2.2.1
      { State := { Raw := testRlsState, GetDiags := [] } } (by decide)⟩

/-! ## Row-level-security resource: read -/

/-- C11: when the prior state is read without error and `GetRowLevelSecurity`,
called with the id of that state, returns the record `rls`,
`rowLevelSecurityResource.Read` adds no error and writes a state whose name,
clause, group key, filter type and description are the known values of the
record and whose tables and role IDs are the record's `Tables` and `RoleIDs`,
as known values, with the same length and in the same order. -/
theorem rls_read_refreshes_from_record (c : Client)
    (req : ReadRequest rowLevelSecurityResourceModel) (rls : client_RowLevelSecurity)
    (hget : HasError req.State.GetDiags = false)
    (hrls : c.GetRowLevelSecurity (ValueInt64 req.State.Raw.ID) = Except.ok rls) :
    ∃ st : rowLevelSecurityResourceModel,
      (rowLevelSecurityResource.Read c req).State = some st ∧
      HasError (rowLevelSecurityResource.Read c req).Diagnostics = false ∧
      (rowLevelSecurityResource.Read c req).calls
        = [ClientCall.GetRowLevelSecurity (ValueInt64 req.State.Raw.ID)] ∧
      st.Name = Value.known rls.Name ∧ st.Clause = Value.known rls.Clause ∧
      st.GroupKey = Value.known rls.GroupKey ∧ st.FilterType = Value.known rls.FilterType ∧
      st.Description = Value.known rls.Description ∧
      listElements st.Tables = rls.Tables.elems.map Value.known ∧
      (listElements st.Tables).length = rls.Tables.len ∧
      listElements st.RoleIDs = rls.RoleIDs.elems.map Value.known ∧
      (listElements st.RoleIDs).length = rls.RoleIDs.len := by
  have hA : HasError (Append [] req.State.GetDiags) = false := by
    rw [HasError_Append_nil_left]; exact hget
  have hT : (ListValueFrom rls.Tables).2 = [] := by
    cases rls.Tables <;> rfl
  have hR : (ListValueFrom rls.RoleIDs).2 = [] := by
    cases rls.RoleIDs <;> rfl
  have hresp : rowLevelSecurityResource.Read c req =
      { Diagnostics := Append [] req.State.GetDiags,
        State := some { req.State.Raw with
          Name := StringValue rls.Name, Clause := StringValue rls.Clause,
          GroupKey := StringValue rls.GroupKey, FilterType := StringValue rls.FilterType,
          Description := StringValue rls.Description,
          Tables := (ListValueFrom rls.Tables).1, RoleIDs := (ListValueFrom rls.RoleIDs).1 },
        calls := [ClientCall.GetRowLevelSecurity (ValueInt64 req.State.Raw.ID)] } := by
    simp only [rowLevelSecurityResource.Read, Get_of_no_error _ _ hget, hA, hrls, hT, hR,
      State_Set, Append_nil_right]
    simp
  rw [hresp]
  refine ⟨_, rfl, hA, rfl, rfl, rfl, rfl, rfl, rfl, ?_, ?_, ?_, ?_⟩
  · cases rls.Tables <;> rfl
  · cases rls.Tables <;> simp [ListValueFrom, listElements, Slice.len, Slice.elems]
  · cases rls.RoleIDs <;> rfl
  · cases rls.RoleIDs <;> simp [ListValueFrom, listElements, Slice.len, Slice.elems]

theorem rls_read_refreshes_from_record_witness :
    ∃ st : rowLevelSecurityResourceModel,
      (rowLevelSecurityResource.Read testClient
        { State := { Raw := testRlsState, GetDiags := [] } }).State = some st ∧
      st.Name = Value.known "test_rls" ∧
      listElements st.Tables = [Value.known 1] ∧ listElements st.RoleIDs = [Value.known 2] :=
  let ⟨st, h1, _, _, h4, _, _, _, _, h9, _, h11, _⟩ := rls_read_refreshes_from_record testClient
    { State := { Raw := testRlsState, GetDiags := [] } }
    { ID := 123, Name := "test_rls", Tables := some [1], Clause := "user_id = 1",
      RoleIDs := some [2], GroupKey := "group1", FilterType := "Regular",
      Description := "Test RLS" } rfl rfl
  ⟨st, h1, h4, h9, h11⟩

/-! ## User resource: the id across updates -/

/-- C13 (the claim as stated fails): an update whose plan carries a roles list
with a null element stops at the roles conversion: it adds an error, invokes
no `UpdateUser` at all, and leaves the prior state untouched. -/
theorem user_update_makes_no_call_on_bad_roles :
    (userResource.Update testClient "2024-01-01T00:00:00Z"
      { Plan := { Raw := { testUserPlan with ID := Value.known 7, Roles := Value.known [Value.null] },
                  GetDiags := [] },
        State := { Raw := testUserState, GetDiags := [] } }).calls.map ClientCall.updateUserID
      = [] ∧
    (userResource.Update testClient "2024-01-01T00:00:00Z"
      { Plan := { Raw := { testUserPlan with ID := Value.known 7, Roles := Value.known [Value.null] },
                  GetDiags := [] },
        State := { Raw := testUserState, GetDiags := [] } }).State = some testUserState ∧
    (userResource.Update testClient "2024-01-01T00:00:00Z"
      { Plan := { Raw := { testUserPlan with ID := Value.known 7, Roles := Value.known [Value.null] },
                  GetDiags := [] },
        State := { Raw := testUserState, GetDiags := [] } }).Panicked = false := by
  refine ⟨?_, ?_, ?_⟩ <;> decide

/-- C13 (amended): when plan and prior state are read without error and the
plan's roles convert without error, `userResource.Update` invokes exactly one
client operation, an `UpdateUser` whose id argument is the id of the prior
state, and when that call succeeds the written state is the plan with its id
replaced by the id of the prior state, whatever id the plan carries. -/
theorem user_update_keeps_id (c : Client) (now : String) (req : UpdateRequest userResourceModel)
    (hplan : HasError req.Plan.GetDiags = false) (hstate : HasError req.State.GetDiags = false)
    (hroles : HasError (ElementsAs req.Plan.Raw.Roles).2 = false) :
    (∃ call, (userResource.Update c now req).calls = [call] ∧
      call.updateUserID = some (ValueInt64 req.State.Raw.ID)) ∧
    (∀ call ∈ (userResource.Update c now req).calls, c.errorOf call = none →
      ∃ st : userResourceModel, (userResource.Update c now req).State = some st ∧
        st.ID = req.State.Raw.ID ∧
        st = { req.Plan.Raw with ID := req.State.Raw.ID, LastUpdated := StringValue now }) := by
  have hB : HasError (Append [] (ElementsAs req.Plan.Raw.Roles).2) = false := by
    rw [HasError_Append_nil_left]; exact hroles
  unfold userResource.Update
  simp only [Get_of_no_error _ _ hplan, Get_of_no_error _ _ hstate,
    ElementsAsAfterGet_of_no_error _ _ hplan, hB, Bool.false_eq_true, if_false]
  split
  · next err heq =>
    refine ⟨⟨_, rfl, rfl⟩, ?_⟩
    intro call hmem hnone
    rw [List.mem_singleton.mp hmem] at hnone
    simp only [Client.errorOf, heq] at hnone
    cases hnone
  · next heq =>
    refine ⟨⟨_, rfl, rfl⟩, ?_⟩
    intro call _ _
    exact ⟨_, rfl, rfl, rfl⟩

theorem user_update_keeps_id_witness :
    ∃ st : userResourceModel,
      (userResource.Update testClient "2024-01-01T00:00:00Z"
        { Plan := { Raw := { testUserPlan with ID := Value.known 7 }, GetDiags := [] },
          State := { Raw := testUserState, GetDiags := [] } }).State = some st ∧
      st.ID = Value.known 100 :=
  let ⟨st, h1, h2, _⟩ := (user_update_keeps_id testClient "2024-01-01T00:00:00Z"
    { Plan := { Raw := { testUserPlan with ID := Value.known 7 }, GetDiags := [] },
      State := { Raw := testUserState, GetDiags := [] } } rfl rfl rfl).2
    (ClientCall.UpdateUser 100 "test.user" "Test" "User" "test.user@example.com"
      "S0meStr0ngPass!" true (some [4])) (by decide) rfl
  ⟨st, h1, h2⟩

/-! ## Role data source -/

/-- C14: when the configuration is read without error, `roleDataSource.Read`
invokes exactly `GetRoleIDByName` with the configured name; when the lookup
returns `k` it adds no error and writes the state with id `k` and the
configured name unchanged; when the lookup fails the state stays null and an
error is added. -/
theorem role_read_by_name (c : Client) (req : DataSourceReadRequest roleDataSourceModel)
    (hget : HasError req.Config.GetDiags = false) :
    (roleDataSource.Read c req).calls
      = [ClientCall.GetRoleIDByName (ValueString req.Config.Raw.Name)] ∧
    (∀ k : Int, c.GetRoleIDByName (ValueString req.Config.Raw.Name) = Except.ok k →
      (roleDataSource.Read c req).State
        = some { ID := Value.known k, Name := req.Config.Raw.Name } ∧
      HasError (roleDataSource.Read c req).Diagnostics = false) ∧
    (∀ e : String, c.GetRoleIDByName (ValueString req.Config.Raw.Name) = Except.error e →
      (roleDataSource.Read c req).State = none ∧
      HasError (roleDataSource.Read c req).Diagnostics = true) := by
  have hA : HasError (Append [] req.Config.GetDiags) = false := by
    rw [HasError_Append_nil_left]; exact hget
  refine ⟨?_, ?_, ?_⟩
  · simp only [roleDataSource.Read, Get_of_no_error _ _ hget, hA]
    simp only [Bool.false_eq_true, if_false]
    split <;> rfl
  · intro k hk
    simp only [roleDataSource.Read, Get_of_no_error _ _ hget, hA, hk, State_Set,
      Append_nil_right]
    exact ⟨rfl, hA⟩
  · intro e he
    simp only [roleDataSource.Read, Get_of_no_error _ _ hget, hA, he]
    exact ⟨rfl, HasError_AddError _ _ _⟩

theorem role_read_by_name_witness :
    (roleDataSource.Read testClient
      { Config := { Raw := { ID := Value.null, Name := Value.known "Admin" }, GetDiags := [] } }).State
      = some { ID := Value.known 1, Name := Value.known "Admin" } :=
  ((role_read_by_name testClient
    { Config := { Raw := { ID := Value.null, Name := Value.known "Admin" }, GetDiags := [] } }
    rfl).2.1 1 rfl).1

/-! ## Read leaves the other attributes alone -/

/-- C18: the state that `userResource.Read` leaves has the id, password and
last-updated stamp of the prior state, and the state that
`rowLevelSecurityResource.Read` leaves has the id of the prior state, whatever
the server returns. -/
theorem read_keeps_unrefreshed_attributes (c : Client) (ureq : ReadRequest userResourceModel)
    (rreq : ReadRequest rowLevelSecurityResourceModel) :
    (∃ st : userResourceModel, (userResource.Read c ureq).State = some st ∧
      st.ID = ureq.State.Raw.ID ∧ st.Password = ureq.State.Raw.Password ∧
      st.LastUpdated = ureq.State.Raw.LastUpdated) ∧
    (∃ st : rowLevelSecurityResourceModel,
      (rowLevelSecurityResource.Read c rreq).State = some st ∧ st.ID = rreq.State.Raw.ID) := by
  constructor
  · unfold userResource.Read
    by_cases hg : HasError ureq.State.GetDiags = true
    · simp [Get_of_error _ _ hg, HasError_Append_nil_left, hg]
    · have hg2 : HasError ureq.State.GetDiags = false := by simpa using hg
      simp only [Get_of_no_error _ _ hg2]
      split
      · exact ⟨_, rfl, rfl, rfl, rfl⟩
      · split
        · exact ⟨_, rfl, rfl, rfl, rfl⟩
        · split
          · exact ⟨_, rfl, rfl, rfl, rfl⟩
          · exact ⟨_, rfl, rfl, rfl, rfl⟩
  · unfold rowLevelSecurityResource.Read
    by_cases hg : HasError rreq.State.GetDiags = true
    · simp [Get_of_error _ _ hg, HasError_Append_nil_left, hg]
    · have hg2 : HasError rreq.State.GetDiags = false := by simpa using hg
      simp only [Get_of_no_error _ _ hg2]
      split
      · exact ⟨_, rfl, rfl⟩
      · split
        · exact ⟨_, rfl, rfl⟩
        · split
          · exact ⟨_, rfl, rfl⟩
          · split
            · exact ⟨_, rfl, rfl⟩
            · exact ⟨_, rfl, rfl⟩

/-! ## Loading the input -/

/-- C19: when retrieving its input produces an error diagnostic, a callback of
the user resource or of the row-level-security resource invokes no client
operation and leaves the response state as it started. Create, Read, Delete
and the row-level-security Update return right after the failed `Get`;
`userResource.Update` does not check, goes on with the plan at its Go zero
value and ends in the panic of `plan.Roles.ElementsAs`, before `UpdateUser` and
before `State.Set`. For `userResource.Update` the plan and the prior state are
decoded from the same schema into the same struct, so a failing `State.Get`
comes with a failing `Plan.Get` (hypothesis `hsame`). -/
theorem load_failure_stops_every_callback (c : Client) (now : String) :
    (∀ req : CreateRequest userResourceModel, HasError req.Plan.GetDiags = true →
      (userResource.Create c now req).calls = [] ∧ (userResource.Create c now req).State = none) ∧
    (∀ req : ReadRequest userResourceModel, HasError req.State.GetDiags = true →
      (userResource.Read c req).calls = [] ∧
      (userResource.Read c req).State = some req.State.Raw) ∧
    (∀ req : UpdateRequest userResourceModel,
      (HasError req.Plan.GetDiags = true ∨ HasError req.State.GetDiags = true) →
      ∀ _hsame : HasError req.State.GetDiags = true → HasError req.Plan.GetDiags = true,
      (userResource.Update c now req).calls = [] ∧
      (userResource.Update c now req).State = some req.State.Raw) ∧
    (∀ req : DeleteRequest userResourceModel, HasError req.State.GetDiags = true →
      (userResource.Delete c req).calls = [] ∧
      (userResource.Delete c req).State = some req.State.Raw) ∧
    (∀ req : CreateRequest rowLevelSecurityResourceModel, HasError req.Plan.GetDiags = true →
      (rowLevelSecurityResource.Create c req).calls = [] ∧
      (rowLevelSecurityResource.Create c req).State = none) ∧
    (∀ req : ReadRequest rowLevelSecurityResourceModel, HasError req.State.GetDiags = true →
      (rowLevelSecurityResource.Read c req).calls = [] ∧
      (rowLevelSecurityResource.Read c req).State = some req.State.Raw) ∧
    (∀ req : UpdateRequest rowLevelSecurityResourceModel, HasError req.Plan.GetDiags = true →
      (rowLevelSecurityResource.Update c req).calls = [] ∧
      (rowLevelSecurityResource.Update c req).State = some req.State.Raw) ∧
    (∀ req : DeleteRequest rowLevelSecurityResourceModel, HasError req.State.GetDiags = true →
      (rowLevelSecurityResource.Delete c req).calls = [] ∧
      (rowLevelSecurityResource.Delete c req).State = some req.State.Raw) := by
  refine ⟨?_, ?_, ?_, ?_, ?_, ?_, ?_, ?_⟩
  · intro req hg
    simp [userResource.Create, Get_of_error _ _ hg, HasError_Append_nil_left, hg]
  · intro req hg
    simp [userResource.Read, Get_of_error _ _ hg, HasError_Append_nil_left, hg]
  · intro req hfail hsame
    have hg : HasError req.Plan.GetDiags = true := by
      rcases hfail with h | h
      · exact h
      · exact hsame h
    simp [userResource.Update, ElementsAsAfterGet_of_error _ _ hg]
  · intro req hg
    simp [userResource.Delete, Get_of_error _ _ hg, HasError_Append_nil_left, hg]
  · intro req hg
    simp [rowLevelSecurityResource.Create, Get_of_error _ _ hg, HasError_Append_nil_left, hg]
  · intro req hg
    simp [rowLevelSecurityResource.Read, Get_of_error _ _ hg, HasError_Append_nil_left, hg]
  · intro req hg
    simp [rowLevelSecurityResource.Update, Get_of_error _ _ hg, HasError_Append_nil_left, hg]
  · intro req hg
    simp [rowLevelSecurityResource.Delete, Get_of_error _ _ hg, HasError_Append_nil_left, hg]

theorem load_failure_stops_every_callback_witness :
    HasError [loadFailure] = true ∧
    (userResource.Update testClient "2024-01-01T00:00:00Z"
      { Plan := { Raw := testUserPlan, GetDiags := [loadFailure] },
        State := { Raw := testUserState, GetDiags := [loadFailure] } }).calls = [] ∧
    (userResource.Update testClient "2024-01-01T00:00:00Z"
      { Plan := { Raw := testUserPlan, GetDiags := [loadFailure] },
        State := { Raw := testUserState, GetDiags := [loadFailure] } }).State
      = some testUserState ∧
    (userResource.Create testClient "2024-01-01T00:00:00Z"
      { Plan := { Raw := testUserPlan, GetDiags := [loadFailure] } }).calls = [] :=
  let h := load_failure_stops_every_callback testClient "2024-01-01T00:00:00Z"
  ⟨rfl,
   (h.2.2.1 { Plan := { Raw := testUserPlan, GetDiags := [loadFailure] },
              State := { Raw := testUserState, GetDiags := [loadFailure] } }
      (Or.inl rfl) (fun _ => rfl)).1,
   (h.2.2.1 { Plan := { Raw := testUserPlan, GetDiags := [loadFailure] },
              State := { Raw := testUserState, GetDiags := [loadFailure] } }
      (Or.inl rfl) (fun _ => rfl)).2,
   (h.1 { Plan := { Raw := testUserPlan, GetDiags := [loadFailure] } } rfl).1⟩

/-! ## Row-level-security resource: the stored filter type -/

/-- C20 (the code departs from the claim): after a successful create with an
unknown `filter_type` the client received the empty string while the written
state holds the unknown value; after a successful update with a null
`filter_type` the client received "Regular" while the written state holds
null; after a successful update with an unknown `filter_type` the client
received the empty string while the written state holds the unknown value. -/
theorem rls_stored_filter_type_differs_from_sent :
    ((rowLevelSecurityResource.Create testClient
        { Plan := { Raw := { testRlsPlan with FilterType := Value.unknown }, GetDiags := [] } }
        ).calls.map ClientCall.filterTypeArg = [some ""] ∧
      (rowLevelSecurityResource.Create testClient
        { Plan := { Raw := { testRlsPlan with FilterType := Value.unknown }, GetDiags := [] } }
        ).State.map (fun st => st.FilterType) = some Value.unknown) ∧
    ((rowLevelSecurityResource.Update testClient
        { Plan := { Raw := { testRlsState with FilterType := Value.null }, GetDiags := [] },
          State := { Raw := testRlsState, GetDiags := [] } }
        ).calls.map ClientCall.filterTypeArg = [some "Regular"] ∧
      (rowLevelSecurityResource.Update testClient
        { Plan := { Raw := { testRlsState with FilterType := Value.null }, GetDiags := [] },
          State := { Raw := testRlsState, GetDiags := [] } }
        ).State.map (fun st => st.FilterType) = some Value.null) ∧
    ((rowLevelSecurityResource.Update testClient
        { Plan := { Raw := { testRlsState with FilterType := Value.unknown }, GetDiags := [] },
          State := { Raw := testRlsState, GetDiags := [] } }
        ).calls.map ClientCall.filterTypeArg = [some ""] ∧
      (rowLevelSecurityResource.Update testClient
        { Plan := { Raw := { testRlsState with FilterType := Value.unknown }, GetDiags := [] },
          State := { Raw := testRlsState, GetDiags := [] } }
        ).State.map (fun st => st.FilterType) = some Value.unknown) := by
  refine ⟨⟨?_, ?_⟩, ⟨?_, ?_⟩, ⟨?_, ?_⟩⟩ <;> decide

/-! ## The HTTP client: CSRF token, create and read -/

theorem mutate_requests (c : client_Client) (t : Transport) (method : Method) (url : String)
    (body : Option Json) (expected : List Nat) (operation : String)
    (hm : method = Method.POST ∨ method = Method.PUT ∨ method = Method.DELETE) :
    (∃ rest : List HttpRequest, (mutate c t method url body expected operation).requests
        = csrfRequest c :: rest ∧
      (csrfRequest c).isCsrfFetch c.Host = true ∧ (csrfRequest c).isMutating = false) ∧
    (∀ err : ClientError, decodeCsrfToken (t [] (csrfRequest c)) = Except.error err →
      (mutate c t method url body expected operation).value = Except.error err ∧
      ∀ q ∈ (mutate c t method url body expected operation).requests, q.isMutating = false) ∧
    (∀ token : String, decodeCsrfToken (t [] (csrfRequest c)) = Except.ok token →
      ∃ q : HttpRequest, (mutate c t method url body expected operation).requests
          = [csrfRequest c, q] ∧ q.isMutating = true ∧ q.CSRF = some token) := by
  have hfetch : (csrfRequest c).isCsrfFetch c.Host = true := by
    simp [HttpRequest.isCsrfFetch, csrfRequest]
  have hnot : (csrfRequest c).isMutating = false := by
    simp [HttpRequest.isMutating, csrfRequest]
  refine ⟨?_, ?_, ?_⟩
  · unfold mutate
    split
    · exact ⟨[], rfl, hfetch, hnot⟩
    · simp only []
      split
      · exact ⟨_, rfl, hfetch, hnot⟩
      · exact ⟨_, rfl, hfetch, hnot⟩
  · intro err herr
    simp only [mutate, herr]
    refine ⟨by first | rfl | trivial, ?_⟩
    intro q hq
    rw [List.mem_singleton.mp hq]
    exact hnot
  · intro token htok
    simp only [mutate, htok]
    split
    · refine ⟨_, rfl, ?_, rfl⟩
      simp only [HttpRequest.isMutating, decide_eq_true_eq]
      exact hm
    · refine ⟨_, rfl, ?_, rfl⟩
      simp only [HttpRequest.isMutating, decide_eq_true_eq]
      exact hm

theorem CsrfFetchedFirst_of_mutate {α : Type} (c : client_Client) (t : Transport)
    (method : Method) (url : String) (body : Option Json) (expected : List Nat)
    (operation : String) (f : Except ClientError HttpResponse → Except ClientError α)
    (hf : ∀ err, f (Except.error err) = Except.error err)
    (hm : method = Method.POST ∨ method = Method.PUT ∨ method = Method.DELETE) :
    CsrfFetchedFirst c t
      { value := f (mutate c t method url body expected operation).value,
        requests := (mutate c t method url body expected operation).requests } := by
  obtain ⟨h1, h2, h3⟩ := mutate_requests c t method url body expected operation hm
  refine ⟨h1, ?_, h3⟩
  intro err herr
  obtain ⟨hv, hq⟩ := h2 err herr
  refine ⟨?_, hq⟩
  show f _ = _
  rw [hv, hf]

/-- C15: each mutating operation of the client (create, update and delete of
a user and of a row-level-security rule) first issues the GET to the
CSRF-token endpoint; when that fetch fails the operation returns its error and
issues no POST, PUT or DELETE; when it succeeds the mutating request follows
it, carrying the token. -/
theorem mutating_calls_fetch_csrf_first (c : client_Client) (t : Transport) (id : Int)
    (name clause groupKey filterType description : String) (tables roleIDs roles : Slice Int)
    (username firstName lastName email password : String) (active : Bool) :
    CsrfFetchedFirst c t
      (client_CreateUser c t username firstName lastName email password active roles) ∧
    CsrfFetchedFirst c t
      (client_UpdateUser c t id username firstName lastName email password active roles) ∧
    CsrfFetchedFirst c t (client_DeleteUser c t id) ∧
    CsrfFetchedFirst c t
      (client_CreateRowLevelSecurity c t name tables clause roleIDs groupKey filterType
        description) ∧
    CsrfFetchedFirst c t
      (client_UpdateRowLevelSecurity c t id name tables clause roleIDs groupKey filterType
        description) ∧
    CsrfFetchedFirst c t (client_DeleteRowLevelSecurity c t id) :=
  ⟨CsrfFetchedFirst_of_mutate c t _ _ _ _ _ (fun v => v.bind decodeID) (fun _ => rfl)
      (Or.inl rfl),
   CsrfFetchedFirst_of_mutate c t _ _ _ _ _ (fun v => v.map (fun _ => ())) (fun _ => rfl)
      (Or.inr (Or.inl rfl)),
   CsrfFetchedFirst_of_mutate c t _ _ _ _ _ (fun v => v.map (fun _ => ())) (fun _ => rfl)
      (Or.inr (Or.inr rfl)),
   CsrfFetchedFirst_of_mutate c t _ _ _ _ _ (fun v => v.bind decodeID) (fun _ => rfl)
      (Or.inl rfl),
   CsrfFetchedFirst_of_mutate c t _ _ _ _ _ (fun v => v.map (fun _ => ())) (fun _ => rfl)
      (Or.inr (Or.inl rfl)),
   CsrfFetchedFirst_of_mutate c t _ _ _ _ _ (fun v => v.map (fun _ => ())) (fun _ => rfl)
      (Or.inr (Or.inr rfl))⟩

theorem mutating_calls_fetch_csrf_first_witness :
    (client_DeleteRowLevelSecurity testHttpClient csrfRefusingTransport 123).value
      = Except.error (ClientError.AuthError "failed to get CSRF token, status code: 401") ∧
    (∀ q ∈ (client_DeleteRowLevelSecurity testHttpClient csrfRefusingTransport 123).requests,
      q.isMutating = false) ∧
    (∃ q : HttpRequest, (client_DeleteRowLevelSecurity testHttpClient testTransport 123).requests
      = [csrfRequest testHttpClient, q] ∧ q.isMutating = true ∧
        q.CSRF = some "test-csrf-token") :=
  let h1 := (mutating_calls_fetch_csrf_first testHttpClient csrfRefusingTransport 123
    "" "" "" "" "" none none none "" "" "" "" "" false).2.2.2.2.2
  let h2 := (mutating_calls_fetch_csrf_first testHttpClient testTransport 123
    "" "" "" "" "" none none none "" "" "" "" "" false).2.2.2.2.2
  ⟨(h1.2.1 _ rfl).1, (h1.2.1 _ rfl).2, h2.2.2 "test-csrf-token" rfl⟩

/-- C16: when the CSRF fetch has succeeded and the POST to the rule collection
answers with status 200 or 201 and a body whose member "id" is the number `k`,
`CreateRowLevelSecurity` returns `k` without error; when the POST answers with
any other status it returns a status error. -/
theorem create_rls_returns_server_id (c : client_Client) (t : Transport)
    (token name clause groupKey filterType description : String) (tables roleIDs : Slice Int)
    (hcsrf : decodeCsrfToken (t [] (csrfRequest c)) = Except.ok token) :
    (∀ k : Int,
      ((t [csrfRequest c] (createRlsRequest c token name tables clause roleIDs groupKey
          filterType description)).StatusCode = 200 ∨
        (t [csrfRequest c] (createRlsRequest c token name tables clause roleIDs groupKey
          filterType description)).StatusCode = 201) →
      (t [csrfRequest c] (createRlsRequest c token name tables clause roleIDs groupKey
          filterType description)).Body.bind (Json.get "id") = some (Json.num k) →
      (client_CreateRowLevelSecurity c t name tables clause roleIDs groupKey filterType
        description).value = Except.ok k) ∧
    ((t [csrfRequest c] (createRlsRequest c token name tables clause roleIDs groupKey
          filterType description)).StatusCode ≠ 200 →
      (t [csrfRequest c] (createRlsRequest c token name tables clause roleIDs groupKey
          filterType description)).StatusCode ≠ 201 →
      (client_CreateRowLevelSecurity c t name tables clause roleIDs groupKey filterType
        description).value = Except.error (ClientError.HTTPStatusError "create row level security"
          (t [csrfRequest c] (createRlsRequest c token name tables clause roleIDs groupKey
            filterType description)).StatusCode)) := by
  constructor
  · intro k hstatus hbody
    have hin : (t [csrfRequest c] (createRlsRequest c token name tables clause roleIDs groupKey
        filterType description)).StatusCode ∈ [200, 201] := by
      rcases hstatus with h | h <;> simp [h]
    simp only [client_CreateRowLevelSecurity, mutate, hcsrf]
    simp only [createRlsRequest] at hin hbody
    simp only [hin, if_true]
    show Except.bind (Except.ok _) decodeID = _
    simp only [Except.bind, decodeID, hbody]
  · intro h200 h201
    have hnin : (t [csrfRequest c] (createRlsRequest c token name tables clause roleIDs groupKey
        filterType description)).StatusCode ∉ [200, 201] := by
      simp [h200, h201]
    simp only [client_CreateRowLevelSecurity, mutate, hcsrf]
    simp only [createRlsRequest] at hnin ⊢
    simp only [hnin, if_false]
    rfl

theorem create_rls_returns_server_id_witness :
    (client_CreateRowLevelSecurity testHttpClient testTransport "test_rls" (some [1])
      "user_id = 1" (some [2]) "group1" "Regular" "Test RLS").value = Except.ok 123 :=
  (create_rls_returns_server_id testHttpClient testTransport "test-csrf-token" "test_rls"
    "user_id = 1" "group1" "Regular" "Test RLS" (some [1]) (some [2]) rfl).1 123
    (Or.inr rfl) rfl

theorem idsOf_eq (elems : List Json) (ids : List Int)
    (h : elems.map Json.idOf = ids.map some) : idsOf elems = some ids := by
  induction elems generalizing ids with
  | nil =>
    cases ids with
    | nil => rfl
    | cons i ids => simp at h
  | cons x xs ih =>
    cases ids with
    | nil => simp at h
    | cons i ids =>
      simp only [List.map_cons, List.cons.injEq] at h
      simp only [idsOf, h.1, ih ids h.2]

/-- C17: when the GET of a rule answers with status 200 and a body that holds,
under "result", an object with the members of a rule, `GetRowLevelSecurity`
returns the record with that id, name, clause, group key, filter type and
description, and with `Tables` and `RoleIDs` equal to the "id" values of the
objects of the "tables" and "roles" arrays, in the same order and of the same
length; it issues that one GET only. -/
theorem get_rls_decodes_envelope (c : client_Client) (t : Transport) (id k : Int) (r : Json)
    (name clause groupKey filterType description : String) (tables roles : List Json)
    (tableIDs roleIDs : List Int)
    (hstatus : (t [] (getRlsRequest c id)).StatusCode = 200)
    (hresult : (t [] (getRlsRequest c id)).Body.bind (Json.get "result") = some r)
    (hid : r.get "id" = some (Json.num k))
    (hname : r.get "name" = some (Json.str name))
    (hclause : r.get "clause" = some (Json.str clause))
    (hgroup : r.get "group_key" = some (Json.str groupKey))
    (hfilter : r.get "filter_type" = some (Json.str filterType))
    (hdesc : r.get "description" = some (Json.str description))
    (htables : r.get "tables" = some (Json.arr tables))
    (hroles : r.get "roles" = some (Json.arr roles))
    (htableIDs : tables.map Json.idOf = tableIDs.map some)
    (hroleIDs : roles.map Json.idOf = roleIDs.map some) :
    (client_GetRowLevelSecurity c t id).value = Except.ok
      { ID := k, Name := name, Tables := some tableIDs, Clause := clause,
        RoleIDs := some roleIDs, GroupKey := groupKey, FilterType := filterType,
        Description := description } ∧
    (client_GetRowLevelSecurity c t id).requests = [getRlsRequest c id] ∧
    tableIDs.length = tables.length ∧ roleIDs.length = roles.length := by
  have hdec : decodeRowLevelSecurity r = some
      { ID := k, Name := name, Tables := some tableIDs, Clause := clause,
        RoleIDs := some roleIDs, GroupKey := groupKey, FilterType := filterType,
        Description := description } := by
    simp [decodeRowLevelSecurity, Json.idOf, Json.strOf, hid, hname, hclause, hgroup, hfilter,
      hdesc, htables, hroles, decodeIDs, idsOf_eq _ _ htableIDs, idsOf_eq _ _ hroleIDs]
  refine ⟨?_, ?_, ?_, ?_⟩
  · simp [client_GetRowLevelSecurity, hstatus, hresult, hdec]
  · simp [client_GetRowLevelSecurity, hstatus, hresult, hdec]
  · have := congrArg List.length htableIDs
    simpa using this.symm
  · have := congrArg List.length hroleIDs
    simpa using this.symm

theorem get_rls_decodes_envelope_witness :
    (client_GetRowLevelSecurity testHttpClient testTransport 123).value = Except.ok
      { ID := 123, Name := "test_rls", Tables := some [1], Clause := "user_id = 1",
        RoleIDs := some [2], GroupKey := "group1", FilterType := "Regular",
        Description := "Test RLS" } :=
  (get_rls_decodes_envelope testHttpClient testTransport 123 123
    (.obj [("id", .num 123), ("name", .str "test_rls"), ("tables", .arr [.obj [("id", .num 1)]]),
      ("clause", .str "user_id = 1"), ("group_key", .str "group1"),
      ("filter_type", .str "Regular"), ("description", .str "Test RLS"),
      ("roles", .arr [.obj [("id", .num 2)]])])
    "test_rls" "user_id = 1" "group1" "Regular" "Test RLS"
    [.obj [("id", .num 1)]] [.obj [("id", .num 2)]] [1] [2]
    rfl rfl rfl rfl rfl rfl rfl rfl rfl rfl rfl rfl).1

/-! ## Create followed by read -/

/-- C21 (the claim as stated fails): a rule created from a plan that leaves
`group_key` and `description` unset is stored with both attributes null; when
the server then returns a record that echoes exactly what was sent, the state
after `Read` holds the known empty string for both, so the two states differ.
The same happens to `first_name` and `last_name` of a user. -/
theorem create_then_read_changes_unset_attributes :
    ((rowLevelSecurityResource.Create echoRlsClient
        { Plan := { Raw := testRlsPlanUnset, GetDiags := [] } }).State
        = some testRlsCreatedUnset ∧
      (rowLevelSecurityResource.Create echoRlsClient
        { Plan := { Raw := testRlsPlanUnset, GetDiags := [] } }).calls
        = [ClientCall.CreateRowLevelSecurity "test_rls_rule" (some [1]) "user_id = 1" (some [1])
            "" "Regular" ""] ∧
      echoesRls
        (ClientCall.CreateRowLevelSecurity "test_rls_rule" (some [1]) "user_id = 1" (some [1])
          "" "Regular" "")
        { ID := 123, Name := "test_rls_rule", Tables := some [1], Clause := "user_id = 1",
          RoleIDs := some [1], GroupKey := "", FilterType := "Regular", Description := "" } ∧
      (rowLevelSecurityResource.Read echoRlsClient
        { State := { Raw := testRlsCreatedUnset, GetDiags := [] } }).State.map
          (fun st => (st.GroupKey, st.Description))
        = some (Value.known "", Value.known "") ∧
      testRlsCreatedUnset.GroupKey = Value.null ∧ testRlsCreatedUnset.Description = Value.null ∧
      (rowLevelSecurityResource.Read echoRlsClient
        { State := { Raw := testRlsCreatedUnset, GetDiags := [] } }).State
        ≠ some testRlsCreatedUnset) ∧
    ((userResource.Create echoUserClient "2024-01-01T00:00:00Z"
        { Plan := { Raw := testUserPlanUnset, GetDiags := [] } }).State
        = some testUserCreatedUnset ∧
      (userResource.Create echoUserClient "2024-01-01T00:00:00Z"
        { Plan := { Raw := testUserPlanUnset, GetDiags := [] } }).calls
        = [ClientCall.CreateUser "test.user" "" "" "test.user@example.com" "S0meStr0ngPass!" true
            (some [4])] ∧
      echoesUser
        (ClientCall.CreateUser "test.user" "" "" "test.user@example.com" "S0meStr0ngPass!" true
          (some [4]))
        { ID := 100, Username := "test.user", FirstName := "", LastName := "",
          Email := "test.user@example.com", Active := true, Roles := some [4] } ∧
      (userResource.Read echoUserClient
        { State := { Raw := testUserCreatedUnset, GetDiags := [] } }).State.map
          (fun st => (st.FirstName, st.LastName))
        = some (Value.known "", Value.known "") ∧
      testUserCreatedUnset.FirstName = Value.null ∧ testUserCreatedUnset.LastName = Value.null ∧
      (userResource.Read echoUserClient
        { State := { Raw := testUserCreatedUnset, GetDiags := [] } }).State
        ≠ some testUserCreatedUnset) := by
  refine ⟨⟨?_, ?_, ?_, ?_, ?_, ?_, ?_⟩, ⟨?_, ?_, ?_, ?_, ?_, ?_, ?_⟩⟩
  · decide
  · decide
  · exact ⟨rfl, rfl, rfl, rfl, rfl, rfl, rfl⟩
  · decide
  · rfl
  · rfl
  · decide
  · decide
  · decide
  · exact ⟨rfl, rfl, rfl, rfl, rfl, rfl⟩
  · decide
  · rfl
  · rfl
  · decide

theorem elementsToInt64_some (elems : List types_Int64) (ns : List Int)
    (h : elementsToInt64 elems = some ns) : ns.map Int64Value = elems := by
  induction elems generalizing ns with
  | nil =>
    simp only [elementsToInt64, Option.some.injEq] at h
    subst h
    rfl
  | cons x xs ih =>
    cases x with
    | null => simp [elementsToInt64] at h
    | unknown => simp [elementsToInt64] at h
    | known n =>
      simp only [elementsToInt64, Option.map_eq_some'] at h
      obtain ⟨l, hl, hns⟩ := h
      subst hns
      simp only [List.map_cons, ih l hl]
      rfl

theorem ListValueFrom_ElementsAs (l : types_List) (h : HasError (ElementsAs l).2 = false) :
    (ListValueFrom (ElementsAs l).1).1 = l := by
  cases l with
  | null => rfl
  | unknown => simp [ElementsAs, HasError, conversionError] at h
  | known elems =>
    cases hconv : elementsToInt64 elems with
    | none => simp [ElementsAs, hconv, HasError, conversionError] at h
    | some ns =>
      simp only [ElementsAs, hconv, ListValueFrom]
      rw [elementsToInt64_some elems ns hconv]

theorem ListValueFrom_roleIDsOf (plan : rowLevelSecurityResourceModel)
    (h : HasError (roleIDsOf plan).2 = false) :
    (ListValueFrom (roleIDsOf plan).1).1 = plan.RoleIDs := by
  unfold roleIDsOf at h ⊢
  cases hr : plan.RoleIDs with
  | null => simp [Value.IsNull, ListValueFrom]
  | unknown =>
    rw [hr] at h
    simp [Value.IsNull, ElementsAs, HasError, conversionError] at h
  | known elems =>
    rw [hr] at h
    simp only [Value.IsNull, Bool.not_false, if_true] at h ⊢
    exact ListValueFrom_ElementsAs _ h

theorem rls_create_success (c : Client) (req : CreateRequest rowLevelSecurityResourceModel)
    (st : rowLevelSecurityResourceModel) (hget : HasError req.Plan.GetDiags = false)
    (h : (rowLevelSecurityResource.Create c req).State = some st) :
    HasError (ElementsAs req.Plan.Raw.Tables).2 = false ∧
    HasError (roleIDsOf req.Plan.Raw).2 = false ∧
    (∃ id : Int, st =
      (if req.Plan.Raw.FilterType.IsNull
        then { req.Plan.Raw with ID := Int64Value id, FilterType := StringValue "Regular" }
        else { req.Plan.Raw with ID := Int64Value id })) ∧
    (rowLevelSecurityResource.Create c req).calls =
      [ClientCall.CreateRowLevelSecurity (ValueString req.Plan.Raw.Name)
        (ElementsAs req.Plan.Raw.Tables).1 (ValueString req.Plan.Raw.Clause)
        (roleIDsOf req.Plan.Raw).1 (ValueString req.Plan.Raw.GroupKey)
        (filterTypeOf req.Plan.Raw) (ValueString req.Plan.Raw.Description)] := by
  have hA : HasError (Append [] req.Plan.GetDiags) = false := by
    rw [HasError_Append_nil_left]; exact hget
  revert h
  unfold rowLevelSecurityResource.Create
  simp only [Get_of_no_error _ _ hget]
  split
  · intro h; simp at h
  · split
    · intro h; simp at h
    · next hd2 =>
      have ht : HasError (ElementsAs req.Plan.Raw.Tables).2 = false := by
        have h2 := hd2
        rw [HasError_Append, hA] at h2
        simpa using h2
      split
      · intro h; simp at h
      · next hd3 =>
        have hr : HasError (roleIDsOf req.Plan.Raw).2 = false := by
          have h3 := hd3
          rw [HasError_Append, HasError_Append, hA, ht] at h3
          simpa using h3
        split
        · intro h; simp at h
        · next id heq =>
          intro h
          simp only [State_Set, Option.some.injEq] at h
          subst h
          refine ⟨ht, hr, ⟨id, ?_⟩, rfl⟩
          split <;> rfl

theorem user_create_success (c : Client) (now : String) (req : CreateRequest userResourceModel)
    (st : userResourceModel) (hget : HasError req.Plan.GetDiags = false)
    (h : (userResource.Create c now req).State = some st) :
    HasError (ElementsAs req.Plan.Raw.Roles).2 = false ∧
    (∃ id : Int, st =
      { req.Plan.Raw with ID := Int64Value id, LastUpdated := StringValue now }) ∧
    (userResource.Create c now req).calls =
      [ClientCall.CreateUser (ValueString req.Plan.Raw.Username)
        (ValueString req.Plan.Raw.FirstName) (ValueString req.Plan.Raw.LastName)
        (ValueString req.Plan.Raw.Email) (ValueString req.Plan.Raw.Password)
        (ValueBool req.Plan.Raw.Active) (ElementsAs req.Plan.Raw.Roles).1] := by
  have hA : HasError (Append [] req.Plan.GetDiags) = false := by
    rw [HasError_Append_nil_left]; exact hget
  revert h
  unfold userResource.Create
  simp only [Get_of_no_error _ _ hget]
  split
  · intro h; simp at h
  · split
    · intro h; simp at h
    · split
      · intro h; simp at h
      · next hd2 =>
        have hr : HasError (ElementsAs req.Plan.Raw.Roles).2 = false := by
          have h2 := hd2
          rw [HasError_Append, hA] at h2
          simpa using h2
        split
        · intro h; simp at h
        · next id heq =>
          intro h
          simp only [State_Set, Option.some.injEq] at h
          subst h
          exact ⟨hr, ⟨id, rfl⟩, rfl⟩

/-- C21 (amended): when `Create` succeeds on a plan that is read without error
and whose string attributes are known values (for a rule: name, clause,
group key and description, with a filter type that is null or known; for a
user: username, first name, last name and email, with a known active flag),
and the server then returns a record that echoes exactly the values `Create`
sent, `Read` on the state written by `Create` adds no error and leaves exactly
that state, role IDs and tables included (also when `role_ids` is unset). -/
theorem create_then_read_stable (c : Client) (now : String) :
    (∀ (req : CreateRequest rowLevelSecurityResourceModel) (st : rowLevelSecurityResourceModel)
        (call : ClientCall) (rls : client_RowLevelSecurity),
      HasError req.Plan.GetDiags = false →
      (∃ v, req.Plan.Raw.Name = Value.known v) → (∃ v, req.Plan.Raw.Clause = Value.known v) →
      (∃ v, req.Plan.Raw.GroupKey = Value.known v) →
      (∃ v, req.Plan.Raw.Description = Value.known v) →
      req.Plan.Raw.FilterType ≠ Value.unknown →
      (rowLevelSecurityResource.Create c req).State = some st →
      call ∈ (rowLevelSecurityResource.Create c req).calls →
      c.GetRowLevelSecurity (ValueInt64 st.ID) = Except.ok rls → echoesRls call rls →
      (rowLevelSecurityResource.Read c { State := { Raw := st, GetDiags := [] } }).State = some st ∧
      HasError (rowLevelSecurityResource.Read c
        { State := { Raw := st, GetDiags := [] } }).Diagnostics = false) ∧
    (∀ (req : CreateRequest userResourceModel) (st : userResourceModel)
        (call : ClientCall) (user : client_UserDetail),
      HasError req.Plan.GetDiags = false →
      (∃ v, req.Plan.Raw.Username = Value.known v) →
      (∃ v, req.Plan.Raw.FirstName = Value.known v) →
      (∃ v, req.Plan.Raw.LastName = Value.known v) →
      (∃ v, req.Plan.Raw.Email = Value.known v) →
      (∃ v, req.Plan.Raw.Active = Value.known v) →
      (userResource.Create c now req).State = some st →
      call ∈ (userResource.Create c now req).calls →
      c.GetUser (ValueInt64 st.ID) = Except.ok user → echoesUser call user →
      (userResource.Read c { State := { Raw := st, GetDiags := [] } }).State = some st ∧
      HasError (userResource.Read c
        { State := { Raw := st, GetDiags := [] } }).Diagnostics = false) := by
  have h0 : HasError ([] : Diagnostics) = false := rfl
  have hA0 : HasError (Append [] ([] : Diagnostics)) = false := rfl
  constructor
  · intro req st call rls hget ⟨vn, hn⟩ ⟨vc, hc⟩ ⟨vg, hg⟩ ⟨vd, hd⟩ hft hst hmem hrec hecho
    obtain ⟨ht, hr, ⟨id, hid⟩, hcalls⟩ := rls_create_success c req st hget hst
    rw [hcalls] at hmem
    rw [List.mem_singleton.mp hmem] at hecho
    obtain ⟨e1, e2, e3, e4, e5, e6, e7⟩ := hecho
    have hstID : ValueInt64 st.ID = id := by
      rw [hid]; split <;> rfl
    rw [hstID] at hrec
    have hT : (ListValueFrom rls.Tables).2 = [] := by cases rls.Tables <;> rfl
    have hR : (ListValueFrom rls.RoleIDs).2 = [] := by cases rls.RoleIDs <;> rfl
    have hstate : (rowLevelSecurityResource.Read c
        { State := { Raw := st, GetDiags := [] } }) =
        { Diagnostics := Append [] [],
          State := some { st with
            Name := StringValue rls.Name, Clause := StringValue rls.Clause,
            GroupKey := StringValue rls.GroupKey, FilterType := StringValue rls.FilterType,
            Description := StringValue rls.Description,
            Tables := (ListValueFrom rls.Tables).1, RoleIDs := (ListValueFrom rls.RoleIDs).1 },
          calls := [ClientCall.GetRowLevelSecurity id] } := by
      simp only [rowLevelSecurityResource.Read, tfsdk_Data.Get, h0, hA0, hstID, hrec, hT, hR,
        State_Set, Append_nil_right, Bool.false_eq_true, if_false]
    rw [hstate]
    refine ⟨?_, rfl⟩
    rw [e1, e2, e3, e4, e5, e6, e7, ListValueFrom_ElementsAs _ ht, ListValueFrom_roleIDsOf _ hr,
      hid]
    cases hf : req.Plan.Raw.FilterType with
    | unknown => exact absurd hf hft
    | null =>
      simp [hn, hc, hg, hd, hf, Value.IsNull, ValueString, StringValue, filterTypeOf]
    | known v =>
      simp [hn, hc, hg, hd, hf, Value.IsNull, ValueString, StringValue, filterTypeOf]
  · intro req st call user hget ⟨vu, hu⟩ ⟨vf, hf⟩ ⟨vl, hl⟩ ⟨ve, he⟩ ⟨va, ha⟩ hst hmem hrec hecho
    obtain ⟨hr, ⟨id, hid⟩, hcalls⟩ := user_create_success c now req st hget hst
    rw [hcalls] at hmem
    rw [List.mem_singleton.mp hmem] at hecho
    obtain ⟨e1, e2, e3, e4, e5, e6⟩ := hecho
    have hstID : ValueInt64 st.ID = id := by
      rw [hid]; rfl
    rw [hstID] at hrec
    have hL : (ListValueFrom user.Roles).2 = [] := by cases user.Roles <;> rfl
    have hstate : (userResource.Read c { State := { Raw := st, GetDiags := [] } }) =
        { Diagnostics := Append [] [],
          State := some { st with
            Username := StringValue user.Username, FirstName := StringValue user.FirstName,
            LastName := StringValue user.LastName, Email := StringValue user.Email,
            Active := BoolValue user.Active, Roles := (ListValueFrom user.Roles).1 },
          calls := [ClientCall.GetUser id] } := by
      simp only [userResource.Read, tfsdk_Data.Get, h0, hA0, hstID, hrec, hL, State_Set,
        Append_nil_right, Bool.false_eq_true, if_false]
    rw [hstate]
    refine ⟨?_, rfl⟩
    rw [e1, e2, e3, e4, e5, e6, ListValueFrom_ElementsAs _ hr, hid]
    simp [hu, hf, hl, he, ha, ValueString, ValueBool, StringValue, BoolValue]

theorem create_then_read_stable_witness :
    (userResource.Read testClient { State := { Raw := testUserState, GetDiags := [] } }).State
      = some testUserState :=
  ((create_then_read_stable testClient "2024-01-01T00:00:00Z").2
    { Plan := { Raw := testUserPlan, GetDiags := [] } } testUserState
    (ClientCall.CreateUser "test.user" "Test" "User" "test.user@example.com" "S0meStr0ngPass!"
      true (some [4]))
    { ID := 100, Username := "test.user", FirstName := "Test", LastName := "User",
      Email := "test.user@example.com", Active := true, Roles := some [4] }
    rfl ⟨_, rfl⟩ ⟨_, rfl⟩ ⟨_, rfl⟩ ⟨_, rfl⟩ ⟨_, rfl⟩ (by decide) (by decide) rfl
    ⟨rfl, rfl, rfl, rfl, rfl, rfl⟩).1

end Superset
